import Mathlib

/-!
Verification development for the neon storage-manager adaptor
(pgxn/neon/pagestore_smgr.c).

The definitions below are a shallow embedding of the C source: each C
function with observable behaviour relevant to the specification is
translated into an executable Lean function over explicit state records.
Machine counters (uint64 ring counters) are modelled as Nat; the three
C int metric counters are modelled as Int; loops are modelled by
structural recursion on an explicit fuel argument that is instantiated
with the exact iteration count of the corresponding C loop.  Calls into
the page-server transport are modelled by oracle parameters: a list of
optional responses (one entry per receive call, none meaning a failed
receive) and a Bool for the result of flush.
-/

namespace NeonSmgr

/-- BufferTag: the block identity (tablespace, database, relation, fork, block). -/
structure BufferTag where
  spcNode : Nat
  dbNode : Nat
  relNode : Nat
  forkNum : Nat
  blockNum : Nat
deriving DecidableEq

/-- PrefetchStatus, the per-slot state machine of pagestore_smgr.c. -/
inductive PrefetchStatus where
  | PRFS_UNUSED
  | PRFS_REQUESTED
  | PRFS_RECEIVED
  | PRFS_TAG_REMAINS
deriving DecidableEq

/-- A page-server response held by a RECEIVED slot.  The payload content is
irrelevant to the pipeline logic, so it is abstracted to a number. -/
structure NeonResponse where
  payload : Nat
deriving DecidableEq

/-- PrefetchRequest: one slot of the prefetch ring. -/
structure PrefetchRequest where
  buftag : BufferTag
  effective_request_lsn : Nat
  response : Option NeonResponse
  status : PrefetchStatus
  my_ring_index : Nat
deriving DecidableEq

/-- The all-zero slot produced by MemSet(slot, 0, sizeof(PrefetchRequest))
followed by status := PRFS_UNUSED (which is also the zero value). -/
def emptySlot : PrefetchRequest :=
  { buftag := ⟨0, 0, 0, 0, 0⟩
    effective_request_lsn := 0
    response := none
    status := .PRFS_UNUSED
    my_ring_index := 0 }

/-- PrefetchState: the per-backend pipeline state.  prf_buffer is the ring
array indexed by array position (ring index mod capacity); prf_hash is the
tag index mapping a BufferTag to the ring index of its live slot.  The
file-global prefetch_lsn and the pgBufferUsage.prefetch statistics counters
are bundled into this record for modelling convenience; no operation below
mixes them up with the ring state proper. -/
structure PrefetchState where
  ring_unused : Nat
  ring_flush : Nat
  ring_receive : Nat
  ring_last : Nat
  n_responses_buffered : Int
  n_requests_inflight : Int
  n_unused : Int
  prf_hash : BufferTag → Option Nat
  prf_buffer : Nat → PrefetchRequest
  prefetch_lsn : Nat
  stat_hits : Nat
  stat_misses : Nat
  stat_expired : Nat
  stat_duplicates : Nat

/-- GetPrfSlot: read the slot at a ring index (array position index mod cap). -/
def GetPrfSlot (cap : Nat) (s : PrefetchState) (ring_index : Nat) : PrefetchRequest :=
  s.prf_buffer (ring_index % cap)

/-- Write the slot at a ring index. -/
def setSlot (cap : Nat) (s : PrefetchState) (ring_index : Nat)
    (slot : PrefetchRequest) : PrefetchState :=
  { s with prf_buffer := fun i => if i = ring_index % cap then slot else s.prf_buffer i }

/-- prfh_insert keyed by buffer tag (the C hash stores slot pointers; the
model stores the ring index of the slot, which identifies it). -/
def hashInsert (h : BufferTag → Option Nat) (t : BufferTag) (idx : Nat) :
    BufferTag → Option Nat :=
  fun x => if x = t then some idx else h x

/-- prfh_delete keyed by buffer tag. -/
def hashDelete (h : BufferTag → Option Nat) (t : BufferTag) :
    BufferTag → Option Nat :=
  fun x => if x = t then none else h x

/-- ReceiveBufferNeedsCompaction: more than one eighth of the received window
consists of holes.  In C the comparison is int / 8 against uint64
arithmetic; on the states of interest all quantities are non-negative and
the receive window dominates the buffered count, so the Int reading below
agrees with the C evaluation. -/
def ReceiveBufferNeedsCompaction (s : PrefetchState) : Bool :=
  decide (s.n_responses_buffered / 8 <
    (s.ring_receive : Int) - (s.ring_last : Int) - s.n_responses_buffered)

/-- One iteration step of prefetch_cleanup_trailing_unused, fuelled.  The
fuel is instantiated with ring_receive - ring_last, the maximal number of
iterations of the C while loop. -/
def cleanup_loop (cap : Nat) : Nat → PrefetchState → PrefetchState
  | 0, s => s
  | fuel + 1, s =>
    if s.ring_last < s.ring_receive ∧
        (GetPrfSlot cap s s.ring_last).status = .PRFS_UNUSED then
      cleanup_loop cap fuel { s with ring_last := s.ring_last + 1 }
    else s

/-- prefetch_cleanup_trailing_unused: advance ring_last past unused slots. -/
def prefetch_cleanup_trailing_unused (cap : Nat) (s : PrefetchState) : PrefetchState :=
  cleanup_loop cap (s.ring_receive - s.ring_last) s

/-- First loop of compact_prefetch_buffers: scan downwards from ring_receive
for the highest UNUSED slot.  Returns (search_ring_index, empty_ring_index);
when no unused slot is found both components come back at ring_last, the
initial value of empty_ring_index in the C code. -/
def compact_find (cap : Nat) (s : PrefetchState) : Nat → Nat → Nat × Nat
  | 0, search => (search, s.ring_last)
  | fuel + 1, search =>
    if s.ring_last < search then
      if (GetPrfSlot cap s (search - 1)).status = .PRFS_UNUSED then
        (search - 1, search - 1)
      else compact_find cap s fuel (search - 1)
    else (search, s.ring_last)

/-- The body of one moving iteration of compact_prefetch_buffers: copy the
used slot at search - 1 into the empty slot at empty (tag index updated in
step), then zero the source slot. -/
def compact_move_step (cap : Nat) (s : PrefetchState) (search empty : Nat) :
    PrefetchState :=
  let source := GetPrfSlot cap s (search - 1)
  let target : PrefetchRequest :=
    { buftag := source.buftag
      status := source.status
      response := source.response
      effective_request_lsn := source.effective_request_lsn
      my_ring_index := empty }
  let s1 := setSlot cap s empty target
  let s2 := { s1 with
    prf_hash := hashInsert (hashDelete s1.prf_hash source.buftag) source.buftag empty }
  setSlot cap s2 (search - 1) emptySlot

/-- Second loop of compact_prefetch_buffers: move used slots downwards in the
scan into the known-empty positions above them.  Returns the new state and
n_moved. -/
def compact_move (cap : Nat) : Nat → PrefetchState → Nat → Nat → Nat →
    PrefetchState × Nat
  | 0, s, _, _, n_moved => (s, n_moved)
  | fuel + 1, s, search, empty, n_moved =>
    if s.ring_last < search then
      if (GetPrfSlot cap s (search - 1)).status = .PRFS_UNUSED then
        compact_move cap fuel s (search - 1) empty n_moved
      else
        compact_move cap fuel (compact_move_step cap s search empty)
          (search - 1) (empty - 1) (n_moved + 1)
    else (s, n_moved)

/-- compact_prefetch_buffers: compact the received window, returning whether
any slot was moved (in which case trailing unused slots were cleaned up). -/
def compact_prefetch_buffers (cap : Nat) (s : PrefetchState) : PrefetchState × Bool :=
  if s.ring_receive = s.ring_last then (s, false)
  else
    let fe := compact_find cap s (s.ring_receive - s.ring_last) s.ring_receive
    let mv := compact_move cap (fe.1 - s.ring_last) s fe.1 fe.2 0
    if 0 < mv.2 then (prefetch_cleanup_trailing_unused cap mv.1, true)
    else (mv.1, false)

/-- The clearing stage of prefetch_set_unused on a live slot: free the
response of a RECEIVED slot (adjusting the metric counters), remove the slot
from the tag index, and zero all slot fields.  The status test is floated
over the common hash-delete and slot-zeroing steps of the C code. -/
def prefetch_set_unused_clear (cap : Nat) (s : PrefetchState) (ring_index : Nat) :
    PrefetchState :=
  if (GetPrfSlot cap s ring_index).status = .PRFS_RECEIVED then
    setSlot cap
      { s with
        n_responses_buffered := s.n_responses_buffered - 1
        n_unused := s.n_unused + 1
        prf_hash := hashDelete s.prf_hash (GetPrfSlot cap s ring_index).buftag }
      ring_index emptySlot
  else
    setSlot cap
      { s with prf_hash := hashDelete s.prf_hash (GetPrfSlot cap s ring_index).buftag }
      ring_index emptySlot

/-- The final stage of prefetch_set_unused: run trailing cleanup when the
retired slot was holding back ring_last, otherwise compact the receive
window if more than one eighth of it is holes. -/
def prefetch_set_unused_tail (cap : Nat) (s3 : PrefetchState) (ring_index : Nat) :
    PrefetchState :=
  if s3.ring_last = ring_index then prefetch_cleanup_trailing_unused cap s3
  else if ReceiveBufferNeedsCompaction s3 then (compact_prefetch_buffers cap s3).1
  else s3

/-- prefetch_set_unused: clear a prefetch slot.  Mirrors the C control flow:
a dead index (below ring_last) or an already UNUSED slot is a no-op; a
RECEIVED slot additionally frees its response and adjusts the metric
counters; the slot is removed from the tag index and zeroed; finally either
trailing cleanup (when retiring at ring_last) or compaction may run. -/
def prefetch_set_unused (cap : Nat) (s : PrefetchState) (ring_index : Nat) :
    PrefetchState :=
  if ring_index < s.ring_last then s
  else if (GetPrfSlot cap s ring_index).status = .PRFS_UNUSED then s
  else prefetch_set_unused_tail cap (prefetch_set_unused_clear cap s ring_index) ring_index

/-- The successful branch of prefetch_read: store the received response into
the slot at ring_receive and advance the counters. -/
def applyReceive (cap : Nat) (s : PrefetchState) (resp : NeonResponse) : PrefetchState :=
  let idx := s.ring_receive
  let slot := GetPrfSlot cap s idx
  let s1 := setSlot cap s idx { slot with status := .PRFS_RECEIVED, response := some resp }
  { s1 with
    n_responses_buffered := s1.n_responses_buffered + 1
    n_requests_inflight := s1.n_requests_inflight - 1
    ring_receive := s1.ring_receive + 1 }

/-- The receive loop of prefetch_wait_for: repeatedly call receive until
ring_receive has advanced past ring_index.  The response script acts as the
transport oracle; an exhausted script or a none entry is a failed receive
(the C receive returning NULL), which returns false. -/
def prefetch_wait_loop (cap : Nat) (ring_index : Nat) :
    List (Option NeonResponse) → PrefetchState → PrefetchState × Bool
  | rs, s =>
    if s.ring_receive ≤ ring_index then
      match rs with
      | [] => (s, false)
      | none :: _ => (s, false)
      | some r :: rest => prefetch_wait_loop cap ring_index rest (applyReceive cap s r)
    else (s, true)

/-- prefetch_wait_for: flush outstanding requests if needed (flushOk is the
transport flush result; failure returns false without state change, mirroring
the C early return), then receive until ring_receive > ring_index. -/
def prefetch_wait_for (cap : Nat) (rs : List (Option NeonResponse)) (flushOk : Bool)
    (s : PrefetchState) (ring_index : Nat) : PrefetchState × Bool :=
  if s.ring_flush ≤ ring_index ∧ s.ring_flush < s.ring_unused then
    if flushOk then
      prefetch_wait_loop cap ring_index rs { s with ring_flush := s.ring_unused }
    else (s, false)
  else prefetch_wait_loop cap ring_index rs s

/-- One iteration body of the prefetch_on_ps_disconnect loop: mark the slot
at ring_receive TAG_REMAINS, decrement the inflight count, advance
ring_receive, then immediately retire the slot via prefetch_set_unused. -/
def disconnect_step (cap : Nat) (s : PrefetchState) : PrefetchState :=
  let ring_index := s.ring_receive
  let slot := GetPrfSlot cap s ring_index
  let s1 := setSlot cap s ring_index { slot with status := .PRFS_TAG_REMAINS }
  let s2 := { s1 with
    n_requests_inflight := s1.n_requests_inflight - 1
    ring_receive := s1.ring_receive + 1 }
  prefetch_set_unused cap s2 ring_index

/-- The loop of prefetch_on_ps_disconnect, fuelled with
ring_unused - ring_receive (exact, since prefetch_set_unused never changes
ring_receive or ring_unused). -/
def prefetch_disconnect_loop (cap : Nat) : Nat → PrefetchState → PrefetchState
  | 0, s => s
  | fuel + 1, s =>
    if s.ring_receive < s.ring_unused then
      prefetch_disconnect_loop cap fuel (disconnect_step cap s)
    else s

/-- prefetch_on_ps_disconnect: drop inflight prefetches when the connection
to the page server drops. -/
def prefetch_on_ps_disconnect (cap : Nat) (s : PrefetchState) : PrefetchState :=
  prefetch_disconnect_loop cap (s.ring_unused - s.ring_receive)
    { s with ring_flush := s.ring_unused }

/-- prefetch_do_request: stamp the effective request LSN (the forced LSN if
given, otherwise the monotone prefetch_lsn watermark raised to the oracle
LSN from neon_get_request_lsn), send the request (the C busy-waits on send
until it is accepted, so the send itself has no failure path), mark the slot
REQUESTED, insert it into the tag index and advance ring_unused.  The latest
flag only reaches the wire message, not the state, so it is not a parameter. -/
def prefetch_do_request (cap : Nat) (s : PrefetchState) (ring_index : Nat)
    (force : Option (Bool × Nat)) (oracleLsn : Nat) : PrefetchState :=
  let slot := GetPrfSlot cap s ring_index
  let eff : Nat :=
    match force with
    | some fp => fp.2
    | none => max s.prefetch_lsn oracleLsn
  let s0 :=
    match force with
    | some _ => s
    | none => { s with prefetch_lsn := max s.prefetch_lsn oracleLsn }
  let newSlot := { slot with effective_request_lsn := eff, status := .PRFS_REQUESTED }
  let s1 := setSlot cap s0 ring_index newSlot
  { s1 with
    n_requests_inflight := s1.n_requests_inflight + 1
    n_unused := s1.n_unused - 1
    ring_unused := s1.ring_unused + 1
    prf_hash := hashInsert s1.prf_hash newSlot.buftag ring_index }

/-- Lookup phase of prefetch_register_buffer.  Returns the intermediate state
and some ring_index exactly on the duplicate-hit early return (which also
bumps pgBufferUsage.prefetch.duplicates); none means fall through to a fresh
registration.  trA/flushOkA script the wait performed when a forced LSN
rejects the found slot. -/
def prefetch_register_lookup (cap : Nat) (trA : List (Option NeonResponse))
    (flushOkA : Bool) (s : PrefetchState) (tag : BufferTag)
    (force : Option (Bool × Nat)) : PrefetchState × Option Nat :=
  match s.prf_hash tag with
  | none => (s, none)
  | some idx =>
    if (match force with
        | some fp =>
          if fp.1 then decide ((GetPrfSlot cap s idx).effective_request_lsn < fp.2)
          else decide (fp.2 ≠ (GetPrfSlot cap s idx).effective_request_lsn)
        | none => false) = true then
      (prefetch_set_unused cap (prefetch_wait_for cap trA flushOkA s idx).1 idx, none)
    else if (GetPrfSlot cap s idx).status = .PRFS_TAG_REMAINS then
      (prefetch_set_unused cap s idx, none)
    else
      ({ s with stat_duplicates := s.stat_duplicates + 1 }, some idx)

/-- Room-making step of prefetch_register_buffer when the ring-full predicate
ring_last + cap - 1 == ring_unused holds: compact if profitable, otherwise
force-retire the oldest slot (waiting for its response first if it is still
REQUESTED).  The C marks the UNUSED case pg_unreachable; the model leaves the
state unchanged there. -/
def prefetch_register_make_room (cap : Nat) (trB : List (Option NeonResponse))
    (flushOkB : Bool) (s : PrefetchState) : PrefetchState :=
  if ReceiveBufferNeedsCompaction s ∧ (compact_prefetch_buffers cap s).2 = true then
    (compact_prefetch_buffers cap s).1
  else
    match (GetPrfSlot cap s s.ring_last).status with
    | .PRFS_REQUESTED =>
      prefetch_set_unused cap (prefetch_wait_for cap trB flushOkB s s.ring_last).1
        s.ring_last
    | .PRFS_RECEIVED => prefetch_set_unused cap s s.ring_last
    | .PRFS_TAG_REMAINS => prefetch_set_unused cap s s.ring_last
    | .PRFS_UNUSED => s

/-- Allocation tail of prefetch_register_buffer: stamp tag and ring index
into the slot at ring_unused, issue the request, then apply the threshold
flush policy of flush_every_n_requests. -/
def prefetch_register_alloc (cap flushEvery : Nat) (oracleLsn : Nat)
    (s2 : PrefetchState) (tag : BufferTag) (force : Option (Bool × Nat)) :
    PrefetchState × Nat :=
  let s4 := prefetch_do_request cap
    (setSlot cap s2 s2.ring_unused
      { GetPrfSlot cap s2 s2.ring_unused with
        buftag := tag, my_ring_index := s2.ring_unused })
    s2.ring_unused force oracleLsn
  if 0 < flushEvery ∧ flushEvery ≤ s4.ring_unused - s4.ring_flush then
    ({ s4 with ring_flush := s4.ring_unused }, s2.ring_unused)
  else (s4, s2.ring_unused)

/-- prefetch_register_buffer: tag-index lookup with LSN-based reuse decision,
room-making when the ring is full, allocation of a fresh slot, request issue
and the threshold flush policy.  flushEvery models flush_every_n_requests. -/
def prefetch_register_buffer (cap flushEvery : Nat)
    (trA trB : List (Option NeonResponse)) (flushOkA flushOkB : Bool)
    (oracleLsn : Nat) (s : PrefetchState) (tag : BufferTag)
    (force : Option (Bool × Nat)) : PrefetchState × Nat :=
  match prefetch_register_lookup cap trA flushOkA s tag force with
  | (s1, some idx) => (s1, idx)
  | (s1, none) =>
    prefetch_register_alloc cap flushEvery oracleLsn
      (if s1.ring_last + cap - 1 = s1.ring_unused then
        prefetch_register_make_room cap trB flushOkB s1
      else s1) tag force

/-- The prefetch-hash hit phase of neon_read_at_lsn: look the tag up; a found
slot is reused (a hit) whenever its effective_request_lsn is at least the
requested LSN, regardless of request_latest; otherwise the slot is waited
for if still REQUESTED, then dropped, counting an expired prefetch.  Returns
some ring_index on reuse. -/
def neon_read_hit_phase (cap : Nat) (tr : List (Option NeonResponse)) (flushOk : Bool)
    (s : PrefetchState) (tag : BufferTag) (request_lsn : Nat)
    (request_latest : Bool) : PrefetchState × Option Nat :=
  match s.prf_hash tag with
  | none => (s, none)
  | some idx =>
    let slot := GetPrfSlot cap s idx
    if request_lsn ≤ slot.effective_request_lsn then
      ({ s with stat_hits := s.stat_hits + 1 }, some idx)
    else
      let s1 :=
        if slot.status = .PRFS_REQUESTED then (prefetch_wait_for cap tr flushOk s idx).1
        else s
      let s2 := prefetch_set_unused cap s1 idx
      ({ s2 with stat_expired := s2.stat_expired + 1 }, none)

/-- Accounting for one copied slot in readahead_buffer_resize: place the
slot at its new position, insert it into the new tag index, and apply the
per-status counter deltas together with the n_unused decrement. -/
def resize_copy_slot (ns : PrefetchState) (newslot : PrefetchRequest)
    (nfree1 : Nat) : PrefetchState :=
  match newslot.status with
  | .PRFS_REQUESTED =>
    { ns with
      prf_buffer := fun i => if i = nfree1 then newslot else ns.prf_buffer i
      prf_hash := hashInsert ns.prf_hash newslot.buftag nfree1
      n_requests_inflight := ns.n_requests_inflight + 1
      ring_receive := ns.ring_receive - 1
      ring_last := ns.ring_last - 1
      n_unused := ns.n_unused - 1 }
  | .PRFS_RECEIVED =>
    { ns with
      prf_buffer := fun i => if i = nfree1 then newslot else ns.prf_buffer i
      prf_hash := hashInsert ns.prf_hash newslot.buftag nfree1
      n_responses_buffered := ns.n_responses_buffered + 1
      ring_last := ns.ring_last - 1
      n_unused := ns.n_unused - 1 }
  | _ =>
    { ns with
      prf_buffer := fun i => if i = nfree1 then newslot else ns.prf_buffer i
      prf_hash := hashInsert ns.prf_hash newslot.buftag nfree1
      ring_last := ns.ring_last - 1
      n_unused := ns.n_unused - 1 }

/-- The copy loop of readahead_buffer_resize, fuelled with the size of the
old window.  It walks the old ring from the newest slot downwards, copying
at most newCap live slots into the tail of the new ring and accounting for
each status in the new counters. -/
def resize_copy (oldCap : Nat) (oldS : PrefetchState) :
    Nat → Nat → Nat → PrefetchState → PrefetchState
  | 0, _, _, ns => ns
  | fuel + 1, endIdx, nfree, ns =>
    if oldS.ring_last ≤ endIdx ∧ nfree ≠ 0 then
      if (GetPrfSlot oldCap oldS endIdx).status = .PRFS_UNUSED then
        resize_copy oldCap oldS fuel (endIdx - 1) nfree ns
      else
        resize_copy oldCap oldS fuel (endIdx - 1) (nfree - 1)
          (resize_copy_slot ns
            { GetPrfSlot oldCap oldS endIdx with my_ring_index := nfree - 1 }
            (nfree - 1))
    else ns

/-- The pre-wait of readahead_buffer_resize: make sure that at most newCap
requests are still inflight before shrinking. -/
def resize_waited (oldCap newCap : Nat) (tr : List (Option NeonResponse))
    (flushOk : Bool) (s : PrefetchState) : PrefetchState :=
  if (newCap : Int) < s.n_requests_inflight then
    (prefetch_wait_for oldCap tr flushOk s (s.ring_unused - newCap)).1
  else s

/-- The freshly zero-allocated PrefetchState of readahead_buffer_resize,
with all ring counters at newCap.  prefetch_lsn and the statistics counters
are globals in C and therefore carried over unchanged. -/
def resize_fresh (newCap : Nat) (s0 : PrefetchState) : PrefetchState :=
  { ring_unused := newCap
    ring_flush := newCap
    ring_receive := newCap
    ring_last := newCap
    n_responses_buffered := 0
    n_requests_inflight := 0
    n_unused := (newCap : Int)
    prf_hash := fun _ => none
    prf_buffer := fun _ => emptySlot
    prefetch_lsn := s0.prefetch_lsn
    stat_hits := s0.stat_hits
    stat_misses := s0.stat_misses
    stat_expired := s0.stat_expired
    stat_duplicates := s0.stat_duplicates }

/-- readahead_buffer_resize: wait until at most newCap requests are inflight,
then rebuild the pipeline state at the new capacity, copying the newest live
slots.  The second C loop only frees the responses of the discarded old
slots (it mutates the old state that is immediately pfreed), so it has no
effect on the resulting state. -/
def readahead_buffer_resize (oldCap newCap : Nat) (tr : List (Option NeonResponse))
    (flushOk : Bool) (s : PrefetchState) : PrefetchState :=
  resize_copy oldCap (resize_waited oldCap newCap tr flushOk s)
    ((resize_waited oldCap newCap tr flushOk s).ring_unused -
      (resize_waited oldCap newCap tr flushOk s).ring_last)
    ((resize_waited oldCap newCap tr flushOk s).ring_unused - 1)
    newCap (resize_fresh newCap (resize_waited oldCap newCap tr flushOk s))

/-- The state built by neon_init: empty ring, empty index, zero counters. -/
def initPState (cap : Nat) : PrefetchState :=
  { ring_unused := 0
    ring_flush := 0
    ring_receive := 0
    ring_last := 0
    n_responses_buffered := 0
    n_requests_inflight := 0
    n_unused := (cap : Int)
    prf_hash := fun _ => none
    prf_buffer := fun _ => emptySlot
    prefetch_lsn := 0
    stat_hits := 0
    stat_misses := 0
    stat_expired := 0
    stat_duplicates := 0 }

/-- The counter invariant of claim C8 and spec section 3 / R1. -/
def CounterInv (cap : Nat) (s : PrefetchState) : Prop :=
  s.ring_last ≤ s.ring_receive ∧ s.ring_receive ≤ s.ring_flush ∧
  s.ring_flush ≤ s.ring_unused ∧ s.ring_unused - s.ring_last ≤ cap

instance (cap : Nat) (s : PrefetchState) : Decidable (CounterInv cap s) := by
  unfold CounterInv; infer_instance

/-! ## Redo read-buffer filter (neon_redo_read_buffer_filter) -/

/-- Observable actions of neon_redo_read_buffer_filter, in program order. -/
inductive RedoEvent where
  | acquireLock
  | setLwLsnBlock (lsn : Nat)
  | lfcEvict
  | releaseLock
  | nblocksRequest (lsn : Nat)
  | setLwLsnRel (lsn : Nat)
deriving DecidableEq

/-- Inputs of neon_redo_read_buffer_filter.  oldFilterClaims is the combined
value of old_redo_read_buffer_filter being set and returning true for this
record; bufferPresent is whether BufTableLookup finds the block in shared
buffers; cachedRelsize is the relation-size cache entry for the referenced
relation fork; nblocksResp is the n_blocks answer of the page server for the
request issued when the size is not cached.  dbNode = 0 models InvalidOid. -/
structure RedoFilterArgs where
  end_recptr : Nat
  dbNode : Nat
  blkno : Nat
  oldFilterClaims : Bool
  bufferPresent : Bool
  cachedRelsize : Option Nat
  nblocksResp : Nat
deriving DecidableEq

/-- Result of neon_redo_read_buffer_filter: the returned skip decision, the
emitted event trace and the resulting relation-size cache entry. -/
structure RedoFilterResult where
  skip : Bool
  events : List RedoEvent
  cache : Option Nat
deriving DecidableEq

/-- neon_redo_read_buffer_filter.  Mirrors the C control flow: delegate to
the chained filter first; return false unconditionally for an invalid
database id (shared catalog); otherwise take the partition lock, look up the
buffer, publish the last-written LSN of the block, evict from the local file
cache when the buffer is absent, release the lock, then maintain the
relation-size cache and the per-relation last-written LSN. -/
def neon_redo_read_buffer_filter (a : RedoFilterArgs) : RedoFilterResult :=
  if a.oldFilterClaims then
    { skip := true, events := [], cache := a.cachedRelsize }
  else if a.dbNode = 0 then
    { skip := false, events := [], cache := a.cachedRelsize }
  else
    let no_redo_needed := !a.bufferPresent
    let evs0 := [RedoEvent.acquireLock, RedoEvent.setLwLsnBlock a.end_recptr]
    let evs1 := if no_redo_needed then evs0 ++ [RedoEvent.lfcEvict] else evs0
    let evs2 := evs1 ++ [RedoEvent.releaseLock]
    match a.cachedRelsize with
    | some relsize =>
      if relsize < a.blkno + 1 then
        { skip := no_redo_needed
          events := evs2 ++ [RedoEvent.setLwLsnRel a.end_recptr]
          cache := some (a.blkno + 1) }
      else
        { skip := no_redo_needed, events := evs2, cache := some relsize }
    | none =>
      { skip := no_redo_needed
        events := evs2 ++ [RedoEvent.nblocksRequest a.end_recptr,
                           RedoEvent.setLwLsnRel a.end_recptr]
        cache := some a.nblocksResp }

/-- Does the trace publish a block last-written LSN of at least lsn strictly
before the first release of the partition lock? -/
def pubBeforeRelease (lsn : Nat) : List RedoEvent → Bool
  | [] => false
  | RedoEvent.releaseLock :: _ => false
  | RedoEvent.setLwLsnBlock l :: rest =>
    if lsn ≤ l then true else pubBeforeRelease lsn rest
  | _ :: rest => pubBeforeRelease lsn rest

/-! ## Eviction WAL-logger (neon_wallog_page) and neon_extend -/

/-- Abstraction of a page for the WAL-logger: its header LSN (PageGetLSN),
whether PageIsNew holds (all-zeros page) and whether it is byte-equal to a
freshly initialised empty heap page (PageIsEmptyHeapPage).  These three
observations are computed by external collaborators in C. -/
structure PageAbs where
  lsn : Nat
  isNew : Bool
  isEmptyHeap : Bool
deriving DecidableEq

/-- Global process flags consulted by neon_wallog_page. -/
structure WalEnv where
  shutdownPending : Bool
  xlogInsertAllowed : Bool
  recoveryInProgress : Bool
deriving DecidableEq

/-- Observable actions of neon_wallog_page and neon_extend. -/
inductive SmgrEvent where
  | forceLogged (blk lsn : Nat)
  | publishedBlock (blk lsn : Nat)
  | lfcWrite (blk : Nat)
  | publishedRel (lsn : Nat)
deriving DecidableEq

/-- Result of neon_wallog_page: whether it panicked (ereport PANIC) and the
trace of WAL/last-written-LSN actions it performed. -/
structure WallogResult where
  panicked : Bool
  events : List SmgrEvent
deriving DecidableEq

def FSM_FORKNUM : Nat := 1

def VISIBILITYMAP_FORKNUM : Nat := 2

/-- neon_wallog_page.  logRecLsn is the LSN returned by log_newpage_copy for
the full-page image written in the force branch. -/
def neon_wallog_page (env : WalEnv) (forknum blocknum : Nat) (page : PageAbs)
    (force : Bool) (logRecLsn : Nat) : WallogResult :=
  if env.shutdownPending then { panicked := false, events := [] }
  else if env.xlogInsertAllowed = false then { panicked := false, events := [] }
  else if (force = true ∨ forknum = FSM_FORKNUM ∨ forknum = VISIBILITYMAP_FORKNUM) ∧
      env.recoveryInProgress = false then
    { panicked := false
      events := [SmgrEvent.forceLogged blocknum logRecLsn,
                 SmgrEvent.publishedBlock blocknum logRecLsn] }
  else if page.lsn = 0 then
    if page.isNew then
      { panicked := false, events := [SmgrEvent.publishedBlock blocknum 0] }
    else if page.isEmptyHeap then
      { panicked := false, events := [SmgrEvent.publishedBlock blocknum 0] }
    else { panicked := true, events := [] }
  else { panicked := false, events := [SmgrEvent.publishedBlock blocknum page.lsn] }

inductive ExtendOutcome where
  | clusterLimitError
  | panicked
  | ok
deriving DecidableEq

/-- Result of neon_extend on the permanent-relation path. -/
structure ExtendResult where
  outcome : ExtendOutcome
  cache : Option Nat
  events : List SmgrEvent
deriving DecidableEq

/-- The gap loop of neon_extend: WAL-log (force = true) each block from the
cached relation size up to the extended block.  gapLogLsn gives the record
LSN produced by log_newpage_copy for each gap block.  Returns the emitted
events and whether a wallog call panicked. -/
def extend_gap_loop (env : WalEnv) (forkNum : Nat) (page : PageAbs)
    (gapLogLsn : Nat → Nat) : Nat → Nat → List SmgrEvent × Bool
  | 0, _ => ([], false)
  | fuel + 1, b =>
    let w := neon_wallog_page env forkNum b page true (gapLogLsn b)
    if w.panicked then (w.events, true)
    else
      let rest := extend_gap_loop env forkNum page gapLogLsn fuel (b + 1)
      (w.events ++ rest.1, rest.2)

/-- neon_extend on a permanent relation.  cachedSize is the relation size
returned by neon_nblocks from the relation-size cache (the previous size);
mainLogLsn is the log_newpage LSN for the extended page were it force
logged; insertPtr is GetXLogInsertRecPtr().  The cluster-size limit check,
the gap loop, the WAL logging of the extended page, the size-cache bump to
blkno + 1, the local-file-cache write-through and the last-written-LSN
publications mirror the C control flow in order. -/
def neon_extend (env : WalEnv) (maxClusterMB currentSizeBytes : Nat)
    (isAutovacuum : Bool) (forkNum blkno : Nat) (page : PageAbs)
    (cachedSize : Nat) (gapLogLsn : Nat → Nat) (mainLogLsn insertPtr : Nat) :
    ExtendResult :=
  if 0 < maxClusterMB ∧ isAutovacuum = false ∧
      maxClusterMB * 1024 * 1024 ≤ currentSizeBytes then
    { outcome := .clusterLimitError, cache := some cachedSize, events := [] }
  else
    let gap := extend_gap_loop env forkNum page gapLogLsn (blkno - cachedSize) cachedSize
    if gap.2 then { outcome := .panicked, cache := some cachedSize, events := gap.1 }
    else
      let w := neon_wallog_page env forkNum blkno page false mainLogLsn
      if w.panicked then
        { outcome := .panicked, cache := some cachedSize, events := gap.1 ++ w.events }
      else
        let evs1 := gap.1 ++ w.events ++ [SmgrEvent.lfcWrite blkno]
        if page.lsn = 0 then
          { outcome := .ok
            cache := some (blkno + 1)
            events := evs1 ++ [SmgrEvent.publishedBlock blkno insertPtr,
                               SmgrEvent.publishedRel insertPtr] }
        else
          { outcome := .ok
            cache := some (blkno + 1)
            events := evs1 ++ [SmgrEvent.publishedRel page.lsn] }

/-! ## Unlogged-build transaction hooks (AtEOXact_neon) -/

inductive XactEvent where
  | commit
  | parallelCommit
  | abort
  | parallelAbort
  | prepare
  | preCommit
  | parallelPreCommit
  | prePrepare
deriving DecidableEq

inductive UnloggedBuildPhase where
  | NOT_IN_PROGRESS
  | PHASE_1
  | PHASE_2
  | NOT_PERMANENT
deriving DecidableEq

/-- The two file-global variables of the unlogged-build controller; the rel
pointer is abstracted to an optional identifier. -/
structure UnloggedBuildState where
  unlogged_build_rel : Option Nat
  unlogged_build_phase : UnloggedBuildPhase
deriving DecidableEq

/-- AtEOXact_neon: the transaction hook.  Returns the final value of the
globals and whether ereport(ERROR) was raised.  The globals are assigned
before ereport in C, so the returned state is the one that survives the
error. -/
def AtEOXact_neon (event : XactEvent) (st : UnloggedBuildState) :
    UnloggedBuildState × Bool :=
  match event with
  | .abort | .parallelAbort =>
    ({ unlogged_build_rel := none, unlogged_build_phase := .NOT_IN_PROGRESS }, false)
  | .commit | .parallelCommit | .prepare | .preCommit | .parallelPreCommit
  | .prePrepare =>
    if st.unlogged_build_phase ≠ .NOT_IN_PROGRESS then
      ({ unlogged_build_rel := none, unlogged_build_phase := .NOT_IN_PROGRESS }, true)
    else (st, false)

/-! ## Request codec (nm_pack_request and the wire format of section 6.1) -/

/-- Big-endian byte encoding of the low w bytes of n, the network-order
layout written by pq_sendint32 and pq_sendint64. -/
def natToBytesBE : Nat → Nat → List Nat
  | 0, _ => []
  | w + 1, n => natToBytesBE w (n / 256) ++ [n % 256]

def byteOfBool (b : Bool) : Nat := if b then 1 else 0

def T_NeonExistsRequest : Nat := 0

def T_NeonNblocksRequest : Nat := 1

def T_NeonGetPageRequest : Nat := 2

def T_NeonDbSizeRequest : Nat := 3

/-- The four request message kinds of the codec. -/
inductive NeonRequestMsg where
  | existsReq (latest : Bool) (lsn spc db rel fork : Nat)
  | nblocksReq (latest : Bool) (lsn spc db rel fork : Nat)
  | dbSizeReq (latest : Bool) (lsn db : Nat)
  | getPageReq (latest : Bool) (lsn spc db rel fork blkno : Nat)
deriving DecidableEq

/-- nm_pack_request: 1-byte tag, 1-byte latest flag, 8-byte network-order
LSN, then the 4-byte relation fields, the 1-byte fork and (for GetPage) the
4-byte block number, exactly as the pq_send calls of the C function. -/
def nm_pack_request : NeonRequestMsg → List Nat
  | .existsReq latest lsn spc db rel fork =>
    [T_NeonExistsRequest, byteOfBool latest] ++ natToBytesBE 8 lsn ++
      natToBytesBE 4 spc ++ natToBytesBE 4 db ++ natToBytesBE 4 rel ++ [fork % 256]
  | .nblocksReq latest lsn spc db rel fork =>
    [T_NeonNblocksRequest, byteOfBool latest] ++ natToBytesBE 8 lsn ++
      natToBytesBE 4 spc ++ natToBytesBE 4 db ++ natToBytesBE 4 rel ++ [fork % 256]
  | .dbSizeReq latest lsn db =>
    [T_NeonDbSizeRequest, byteOfBool latest] ++ natToBytesBE 8 lsn ++ natToBytesBE 4 db
  | .getPageReq latest lsn spc db rel fork blkno =>
    [T_NeonGetPageRequest, byteOfBool latest] ++ natToBytesBE 8 lsn ++
      natToBytesBE 4 spc ++ natToBytesBE 4 db ++ natToBytesBE 4 rel ++ [fork % 256] ++
      natToBytesBE 4 blkno

/-- Read w big-endian bytes, folding them onto acc. -/
def readBE : Nat → Nat → List Nat → Option (Nat × List Nat)
  | 0, acc, bs => some (acc, bs)
  | _ + 1, _, [] => none
  | w + 1, acc, b :: bs => readBE w (acc * 256 + b) bs

def readByte : List Nat → Option (Nat × List Nat)
  | [] => none
  | b :: rest => some (b, rest)

def readBool (bs : List Nat) : Option (Bool × List Nat) :=
  match bs with
  | [] => none
  | 0 :: rest => some (false, rest)
  | 1 :: rest => some (true, rest)
  | _ => none

/-- Decode the common body latest, lsn, spc, db, rel, fork and require the
buffer to be consumed exactly. -/
def decodeRelBody (mk : Bool → Nat → Nat → Nat → Nat → Nat → NeonRequestMsg)
    (r0 : List Nat) : Option NeonRequestMsg :=
  match readBool r0 with
  | none => none
  | some (latest, r1) =>
    match readBE 8 0 r1 with
    | none => none
    | some (lsn, r2) =>
      match readBE 4 0 r2 with
      | none => none
      | some (spc, r3) =>
        match readBE 4 0 r3 with
        | none => none
        | some (db, r4) =>
          match readBE 4 0 r4 with
          | none => none
          | some (rel, r5) =>
            match readByte r5 with
            | none => none
            | some (fork, r6) =>
              if r6 = [] then some (mk latest lsn spc db rel fork) else none

/-- Decode the GetPage body: the common fields followed by a 4-byte block
number, consuming the buffer exactly. -/
def decodeGetPageBody (r0 : List Nat) : Option NeonRequestMsg :=
  match readBool r0 with
  | none => none
  | some (latest, r1) =>
    match readBE 8 0 r1 with
    | none => none
    | some (lsn, r2) =>
      match readBE 4 0 r2 with
      | none => none
      | some (spc, r3) =>
        match readBE 4 0 r3 with
        | none => none
        | some (db, r4) =>
          match readBE 4 0 r4 with
          | none => none
          | some (rel, r5) =>
            match readByte r5 with
            | none => none
            | some (fork, r6) =>
              match readBE 4 0 r6 with
              | none => none
              | some (blkno, r7) =>
                if r7 = [] then
                  some (.getPageReq latest lsn spc db rel fork blkno)
                else none

/-- Decode the DbSize body: latest, lsn, db, consuming the buffer exactly. -/
def decodeDbSizeBody (r0 : List Nat) : Option NeonRequestMsg :=
  match readBool r0 with
  | none => none
  | some (latest, r1) =>
    match readBE 8 0 r1 with
    | none => none
    | some (lsn, r2) =>
      match readBE 4 0 r2 with
      | none => none
      | some (db, r3) =>
        if r3 = [] then some (.dbSizeReq latest lsn db) else none

/-- Modelled from the spec: the request decoder is the page-server side of
the protocol and is not part of this repository (nm_unpack_response in the
source only decodes responses and refuses request tags).  It follows the
wire table of section 6.1: a 1-byte tag dispatches to the fixed-width
network-order body of the request kind; an unknown tag or any trailing
bytes is a decode error. -/
def nm_unpack_request (bs : List Nat) : Option NeonRequestMsg :=
  match readByte bs with
  | none => none
  | some (tag, r0) =>
    if tag = T_NeonExistsRequest then decodeRelBody .existsReq r0
    else if tag = T_NeonNblocksRequest then decodeRelBody .nblocksReq r0
    else if tag = T_NeonGetPageRequest then decodeGetPageBody r0
    else if tag = T_NeonDbSizeRequest then decodeDbSizeBody r0
    else none

/-- Field bounds under which a request message is representable on the wire
(uint64 LSN, uint32 oids and block number, int8 fork). -/
def wfRequest : NeonRequestMsg → Bool
  | .existsReq _ lsn spc db rel fork =>
    decide (lsn < 2 ^ 64 ∧ spc < 2 ^ 32 ∧ db < 2 ^ 32 ∧ rel < 2 ^ 32 ∧ fork < 256)
  | .nblocksReq _ lsn spc db rel fork =>
    decide (lsn < 2 ^ 64 ∧ spc < 2 ^ 32 ∧ db < 2 ^ 32 ∧ rel < 2 ^ 32 ∧ fork < 256)
  | .dbSizeReq _ lsn db => decide (lsn < 2 ^ 64 ∧ db < 2 ^ 32)
  | .getPageReq _ lsn spc db rel fork blkno =>
    decide (lsn < 2 ^ 64 ∧ spc < 2 ^ 32 ∧ db < 2 ^ 32 ∧ rel < 2 ^ 32 ∧ fork < 256 ∧
      blkno < 2 ^ 32)

/-! ## Concrete states used by witnesses and counterexamples -/

def tagA : BufferTag := ⟨1663, 12345, 16384, 0, 1⟩

def tagB : BufferTag := ⟨1663, 12345, 16384, 0, 2⟩

def tagC : BufferTag := ⟨1663, 12345, 16384, 0, 3⟩

/-- A live REQUESTED slot, for building example states. -/
def requestedSlot (t : BufferTag) (idx lsn : Nat) : PrefetchRequest :=
  { buftag := t
    effective_request_lsn := lsn
    response := none
    status := .PRFS_REQUESTED
    my_ring_index := idx }

/-- A live RECEIVED slot, for building example states. -/
def receivedSlot (t : BufferTag) (idx lsn : Nat) : PrefetchRequest :=
  { buftag := t
    effective_request_lsn := lsn
    response := some ⟨0⟩
    status := .PRFS_RECEIVED
    my_ring_index := idx }

/-- Scenario S4 of the spec at capacity 4: three prefetches enqueued and
still inflight (slots 0..2 REQUESTED), nothing received. -/
def exS4 : PrefetchState :=
  { ring_unused := 3
    ring_flush := 0
    ring_receive := 0
    ring_last := 0
    n_responses_buffered := 0
    n_requests_inflight := 3
    n_unused := 1
    prf_hash := fun t =>
      if t = tagA then some 0 else if t = tagB then some 1
      else if t = tagC then some 2 else none
    prf_buffer := fun i =>
      if i = 0 then requestedSlot tagA 0 10
      else if i = 1 then requestedSlot tagB 1 10
      else if i = 2 then requestedSlot tagC 2 10
      else emptySlot
    prefetch_lsn := 10
    stat_hits := 0
    stat_misses := 0
    stat_expired := 0
    stat_duplicates := 0 }

/-- A pipeline at capacity 8 holding one RECEIVED response for tagA at ring
index 0 with effective request LSN 200 (scenario of spec section 8, S2). -/
def exRead : PrefetchState :=
  { ring_unused := 1
    ring_flush := 1
    ring_receive := 1
    ring_last := 0
    n_responses_buffered := 1
    n_requests_inflight := 0
    n_unused := 7
    prf_hash := fun t => if t = tagA then some 0 else none
    prf_buffer := fun i => if i = 0 then receivedSlot tagA 0 200 else emptySlot
    prefetch_lsn := 200
    stat_hits := 0
    stat_misses := 0
    stat_expired := 0
    stat_duplicates := 0 }

/-- A pipeline at capacity 8 with a RECEIVED slot for tagA at ring index 0,
a hole-rich received window ending in a RECEIVED slot for tagB at ring index
5: ring indexes 1..4 are UNUSED, so retiring index 5 triggers compaction. -/
def exCompact : PrefetchState :=
  { ring_unused := 6
    ring_flush := 6
    ring_receive := 6
    ring_last := 0
    n_responses_buffered := 2
    n_requests_inflight := 0
    n_unused := 2
    prf_hash := fun t =>
      if t = tagA then some 0 else if t = tagB then some 5 else none
    prf_buffer := fun i =>
      if i = 0 then receivedSlot tagA 0 100
      else if i = 5 then receivedSlot tagB 5 100
      else emptySlot
    prefetch_lsn := 100
    stat_hits := 0
    stat_misses := 0
    stat_expired := 0
    stat_duplicates := 0 }

/-! ## Frame and preservation lemmas for the pipeline operations -/

/-- Two ring indexes inside a window of length at most cap that share an
array position are equal. -/
theorem ring_pos_inj (cap a b lo hi : Nat) (h1 : lo ≤ a) (h2 : a < hi)
    (h3 : lo ≤ b) (h4 : b < hi) (h5 : hi - lo ≤ cap) (h6 : a % cap = b % cap) :
    a = b := by
  rcases Nat.le_total a b with hab | hba
  · have hd : b - a < cap := by omega
    have hdvd : cap ∣ b - a := (Nat.modEq_iff_dvd' hab).mp h6
    have := Nat.eq_zero_of_dvd_of_lt hdvd hd
    omega
  · have hd : a - b < cap := by omega
    have hdvd : cap ∣ a - b := (Nat.modEq_iff_dvd' hba).mp h6.symm
    have := Nat.eq_zero_of_dvd_of_lt hdvd hd
    omega

/-- cleanup_loop only advances ring_last, and only up to ring_receive. -/
theorem cleanup_loop_eq (cap : Nat) : ∀ (fuel : Nat) (s : PrefetchState),
    ∃ rl, cleanup_loop cap fuel s = { s with ring_last := rl } ∧
      s.ring_last ≤ rl ∧ (rl ≤ s.ring_receive ∨ rl = s.ring_last) := by
  intro fuel
  induction fuel with
  | zero => intro s; exact ⟨s.ring_last, rfl, Nat.le_refl _, Or.inr rfl⟩
  | succ n ih =>
    intro s
    by_cases h : s.ring_last < s.ring_receive ∧
        (GetPrfSlot cap s s.ring_last).status = .PRFS_UNUSED
    · obtain ⟨rl, heq, hle, hbd⟩ := ih { s with ring_last := s.ring_last + 1 }
      have hlt : s.ring_last < s.ring_receive := h.1
      have hle1 : s.ring_last + 1 ≤ rl := hle
      have hbd1 : rl ≤ s.ring_receive ∨ rl = s.ring_last + 1 := hbd
      refine ⟨rl, ?_, by omega, Or.inl (by omega)⟩
      simpa [cleanup_loop, h] using heq
    · exact ⟨s.ring_last, by simp [cleanup_loop, h], Nat.le_refl _, Or.inr rfl⟩

/-- prefetch_cleanup_trailing_unused only advances ring_last, at most to
ring_receive. -/
theorem cleanup_trailing_eq (cap : Nat) (s : PrefetchState) :
    ∃ rl, prefetch_cleanup_trailing_unused cap s = { s with ring_last := rl } ∧
      s.ring_last ≤ rl ∧ (rl ≤ s.ring_receive ∨ rl = s.ring_last) :=
  cleanup_loop_eq cap (s.ring_receive - s.ring_last) s

/-- compact_move only rewrites the ring buffer and the tag index. -/
theorem compact_move_eq (cap : Nat) : ∀ (fuel : Nat) (s : PrefetchState)
    (search empty n : Nat),
    ∃ pb ph, (compact_move cap fuel s search empty n).1 =
      { s with prf_buffer := pb, prf_hash := ph } := by
  intro fuel
  induction fuel with
  | zero => intro s search empty n; exact ⟨s.prf_buffer, s.prf_hash, rfl⟩
  | succ m ih =>
    intro s search empty n
    by_cases h : s.ring_last < search
    · by_cases hu : (GetPrfSlot cap s (search - 1)).status = .PRFS_UNUSED
      · obtain ⟨pb, ph, heq⟩ := ih s (search - 1) empty n
        exact ⟨pb, ph, by simpa [compact_move, h, hu] using heq⟩
      · obtain ⟨pb, ph, heq⟩ := ih (compact_move_step cap s search empty)
          (search - 1) (empty - 1) (n + 1)
        refine ⟨pb, ph, ?_⟩
        have hunf : compact_move cap (m + 1) s search empty n =
            compact_move cap m (compact_move_step cap s search empty)
              (search - 1) (empty - 1) (n + 1) := by
          simp [compact_move, h, hu]
        rw [hunf]
        exact heq
    · exact ⟨s.prf_buffer, s.prf_hash, by simp [compact_move, h]⟩

/-- compact_prefetch_buffers rewrites the buffer and the index and may
advance ring_last (at most to ring_receive); all other fields are
untouched. -/
theorem compact_eq (cap : Nat) (s : PrefetchState) :
    ∃ pb ph rl, (compact_prefetch_buffers cap s).1 =
      { s with prf_buffer := pb, prf_hash := ph, ring_last := rl } ∧
      s.ring_last ≤ rl ∧ (rl ≤ s.ring_receive ∨ rl = s.ring_last) := by
  by_cases h0 : s.ring_receive = s.ring_last
  · refine ⟨s.prf_buffer, s.prf_hash, s.ring_last, ?_, Nat.le_refl _, Or.inr rfl⟩
    have hid : (compact_prefetch_buffers cap s).1 = s := by
      simp [compact_prefetch_buffers, h0]
    rw [hid]
  · obtain ⟨pb, ph, hmv⟩ := compact_move_eq cap
      ((compact_find cap s (s.ring_receive - s.ring_last) s.ring_receive).1 - s.ring_last) s
      (compact_find cap s (s.ring_receive - s.ring_last) s.ring_receive).1
      (compact_find cap s (s.ring_receive - s.ring_last) s.ring_receive).2 0
    by_cases hmoved : 0 < (compact_move cap
        ((compact_find cap s (s.ring_receive - s.ring_last) s.ring_receive).1 - s.ring_last) s
        (compact_find cap s (s.ring_receive - s.ring_last) s.ring_receive).1
        (compact_find cap s (s.ring_receive - s.ring_last) s.ring_receive).2 0).2
    · obtain ⟨rl, hcl, hle, hbd⟩ := cleanup_trailing_eq cap
        { s with prf_buffer := pb, prf_hash := ph }
      refine ⟨pb, ph, rl, ?_, hle, hbd⟩
      simp only [compact_prefetch_buffers, h0, if_false, hmoved, if_true]
      rw [hmv, hcl]
    · refine ⟨pb, ph, s.ring_last, ?_, Nat.le_refl _, Or.inr rfl⟩
      simp only [compact_prefetch_buffers, h0, if_false, hmoved, if_false]
      rw [hmv]

/-- The clearing stage only rewrites the buffer, the index and the two
metric counters. -/
theorem set_unused_clear_eq (cap : Nat) (s : PrefetchState) (idx : Nat) :
    ∃ pb ph nb nu, prefetch_set_unused_clear cap s idx =
      { s with prf_buffer := pb, prf_hash := ph,
               n_responses_buffered := nb, n_unused := nu } := by
  by_cases hr : (GetPrfSlot cap s idx).status = .PRFS_RECEIVED
  · refine ⟨fun i => if i = idx % cap then emptySlot else s.prf_buffer i,
      hashDelete s.prf_hash (GetPrfSlot cap s idx).buftag,
      s.n_responses_buffered - 1, s.n_unused + 1, ?_⟩
    unfold prefetch_set_unused_clear
    rw [if_pos hr]
    rfl
  · refine ⟨fun i => if i = idx % cap then emptySlot else s.prf_buffer i,
      hashDelete s.prf_hash (GetPrfSlot cap s idx).buftag,
      s.n_responses_buffered, s.n_unused, ?_⟩
    unfold prefetch_set_unused_clear
    rw [if_neg hr]
    rfl

/-- The tail stage only rewrites the buffer and the index and may advance
ring_last, at most to ring_receive. -/
theorem set_unused_tail_eq (cap : Nat) (s3 : PrefetchState) (idx : Nat) :
    ∃ pb ph rl, prefetch_set_unused_tail cap s3 idx =
      { s3 with prf_buffer := pb, prf_hash := ph, ring_last := rl } ∧
      s3.ring_last ≤ rl ∧ (rl ≤ s3.ring_receive ∨ rl = s3.ring_last) := by
  unfold prefetch_set_unused_tail
  split
  · obtain ⟨rl, hcl, hle, hbd⟩ := cleanup_trailing_eq cap s3
    exact ⟨s3.prf_buffer, s3.prf_hash, rl, by rw [hcl], hle, hbd⟩
  · split
    · obtain ⟨pb, ph, rl, hcp, hle, hbd⟩ := compact_eq cap s3
      exact ⟨pb, ph, rl, by rw [hcp], hle, hbd⟩
    · exact ⟨_, _, _, rfl, Nat.le_refl _, Or.inr rfl⟩

/-- prefetch_set_unused only rewrites the buffer, the index, the two metric
counters and (monotonically, bounded by ring_receive) ring_last. -/
theorem set_unused_eq (cap : Nat) (s : PrefetchState) (idx : Nat) :
    ∃ pb ph rl nb nu, prefetch_set_unused cap s idx =
      { s with prf_buffer := pb, prf_hash := ph, ring_last := rl,
               n_responses_buffered := nb, n_unused := nu } ∧
      s.ring_last ≤ rl ∧ (rl ≤ s.ring_receive ∨ rl = s.ring_last) := by
  unfold prefetch_set_unused
  split
  · exact ⟨_, _, _, _, _, rfl, Nat.le_refl _, Or.inr rfl⟩
  · split
    · exact ⟨_, _, _, _, _, rfl, Nat.le_refl _, Or.inr rfl⟩
    · obtain ⟨pb, ph, nb, nu, hc⟩ := set_unused_clear_eq cap s idx
      obtain ⟨pb2, ph2, rl, ht, hle, hbd⟩ :=
        set_unused_tail_eq cap (prefetch_set_unused_clear cap s idx) idx
      refine ⟨pb2, ph2, rl, nb, nu, ?_, ?_, ?_⟩
      · rw [ht, hc]
      · rw [hc] at hle; simpa using hle
      · rw [hc] at hbd; simpa using hbd

/-- prefetch_set_unused preserves the counter invariant unconditionally. -/
theorem set_unused_counterInv (cap c : Nat) (s : PrefetchState) (idx : Nat)
    (h : CounterInv c s) : CounterInv c (prefetch_set_unused cap s idx) := by
  obtain ⟨pb, ph, rl, nb, nu, heq, hle, hbd⟩ := set_unused_eq cap s idx
  obtain ⟨h1, h2, h3, h4⟩ := h
  rw [heq]
  refine ⟨?_, h2, h3, ?_⟩ <;> simp <;> omega

/-- The receive loop only rewrites the buffer, the two metric counters and
ring_receive, which advances monotonically and at most past ring_index. -/
theorem wait_loop_eq (cap idx : Nat) :
    ∀ (rs : List (Option NeonResponse)) (s : PrefetchState),
    ∃ pb nb ni rr, (prefetch_wait_loop cap idx rs s).1 =
      { s with prf_buffer := pb, n_responses_buffered := nb,
               n_requests_inflight := ni, ring_receive := rr } ∧
      s.ring_receive ≤ rr ∧ rr ≤ max s.ring_receive (idx + 1) := by
  intro rs
  induction rs with
  | nil =>
    intro s
    refine ⟨s.prf_buffer, s.n_responses_buffered, s.n_requests_inflight, s.ring_receive,
      ?_, Nat.le_refl _, Nat.le_max_left _ _⟩
    by_cases h : s.ring_receive ≤ idx <;> simp [prefetch_wait_loop, h]
  | cons r rest ih =>
    intro s
    by_cases h : s.ring_receive ≤ idx
    · cases r with
      | none =>
        refine ⟨s.prf_buffer, s.n_responses_buffered, s.n_requests_inflight, s.ring_receive,
          ?_, Nat.le_refl _, Nat.le_max_left _ _⟩
        simp [prefetch_wait_loop, h]
      | some resp =>
        obtain ⟨pb, nb, ni, rr, heq, hge, hle⟩ := ih (applyReceive cap s resp)
        have hrec : (applyReceive cap s resp).ring_receive = s.ring_receive + 1 := rfl
        refine ⟨pb, nb, ni, rr, ?_, by omega, ?_⟩
        · have hunf : (prefetch_wait_loop cap idx (some resp :: rest) s).1 =
              (prefetch_wait_loop cap idx rest (applyReceive cap s resp)).1 := by
            simp [prefetch_wait_loop, h]
          rw [hunf, heq]; rfl
        · rw [hrec] at hle
          have hmax : max (s.ring_receive + 1) (idx + 1) = idx + 1 :=
            Nat.max_eq_right (by omega)
          rw [hmax] at hle
          exact Nat.le_trans hle (Nat.le_max_right _ _)
    · refine ⟨s.prf_buffer, s.n_responses_buffered, s.n_requests_inflight, s.ring_receive,
        ?_, Nat.le_refl _, Nat.le_max_left _ _⟩
      cases r <;> simp [prefetch_wait_loop, h]

/-- The receive loop preserves the counter invariant when the awaited index
is below ring_flush. -/
theorem wait_loop_counterInv (cap c idx : Nat) (rs : List (Option NeonResponse))
    (s : PrefetchState) (h : CounterInv c s) (hidx : idx < s.ring_flush) :
    CounterInv c (prefetch_wait_loop cap idx rs s).1 := by
  obtain ⟨pb, nb, ni, rr, heq, hge, hle⟩ := wait_loop_eq cap idx rs s
  obtain ⟨h1, h2, h3, h4⟩ := h
  rw [heq]
  have hrr : rr ≤ s.ring_flush := Nat.le_trans hle (Nat.max_le.mpr ⟨h2, hidx⟩)
  exact ⟨by simpa using Nat.le_trans h1 hge, by simpa using hrr,
    by simpa using h3, by simpa using h4⟩

/-- prefetch_wait_for only rewrites the buffer, the two metric counters,
ring_receive (monotonically) and ring_flush (to ring_unused when it
flushes). -/
theorem wait_for_eq (cap : Nat) (rs : List (Option NeonResponse)) (fOk : Bool)
    (s : PrefetchState) (idx : Nat) :
    ∃ pb nb ni rr rf, (prefetch_wait_for cap rs fOk s idx).1 =
      { s with prf_buffer := pb, n_responses_buffered := nb,
               n_requests_inflight := ni, ring_receive := rr, ring_flush := rf } ∧
      s.ring_receive ≤ rr ∧ rr ≤ max s.ring_receive (idx + 1) ∧
      (rf = s.ring_flush ∨ rf = s.ring_unused) := by
  unfold prefetch_wait_for
  split
  · split
    · obtain ⟨pb, nb, ni, rr, heq, hge, hle⟩ :=
        wait_loop_eq cap idx rs { s with ring_flush := s.ring_unused }
      exact ⟨pb, nb, ni, rr, s.ring_unused, by rw [heq], hge, hle, Or.inr rfl⟩
    · exact ⟨s.prf_buffer, s.n_responses_buffered, s.n_requests_inflight,
        s.ring_receive, s.ring_flush, rfl, Nat.le_refl _, Nat.le_max_left _ _, Or.inl rfl⟩
  · obtain ⟨pb, nb, ni, rr, heq, hge, hle⟩ := wait_loop_eq cap idx rs s
    exact ⟨pb, nb, ni, rr, s.ring_flush, by rw [heq], hge, hle, Or.inl rfl⟩

/-- prefetch_wait_for preserves the counter invariant when the awaited index
is a live ring index (below ring_unused). -/
theorem wait_for_counterInv (cap c : Nat) (rs : List (Option NeonResponse))
    (fOk : Bool) (s : PrefetchState) (idx : Nat) (h : CounterInv c s)
    (hidx : idx < s.ring_unused) :
    CounterInv c (prefetch_wait_for cap rs fOk s idx).1 := by
  obtain ⟨h1, h2, h3, h4⟩ := h
  unfold prefetch_wait_for
  split
  · split
    · exact wait_loop_counterInv cap c idx rs { s with ring_flush := s.ring_unused }
        ⟨h1, by simpa using Nat.le_trans h2 h3, by simp, by simpa using h4⟩
        (by simpa using hidx)
    · exact ⟨h1, h2, h3, h4⟩
  · rename_i hcond
    have hflush : idx < s.ring_flush := by
      rcases Decidable.not_and_iff_or_not.mp hcond with hc | hc <;> omega
    exact wait_loop_counterInv cap c idx rs s ⟨h1, h2, h3, h4⟩ hflush

/-- prefetch_do_request advances ring_unused by one and leaves the other
ring counters and the duplicate statistic unchanged. -/
theorem do_request_counters (cap : Nat) (s : PrefetchState) (ri : Nat)
    (force : Option (Bool × Nat)) (oLsn : Nat) :
    (prefetch_do_request cap s ri force oLsn).ring_unused = s.ring_unused + 1 ∧
    (prefetch_do_request cap s ri force oLsn).ring_flush = s.ring_flush ∧
    (prefetch_do_request cap s ri force oLsn).ring_receive = s.ring_receive ∧
    (prefetch_do_request cap s ri force oLsn).ring_last = s.ring_last ∧
    (prefetch_do_request cap s ri force oLsn).stat_duplicates = s.stat_duplicates := by
  cases force <;> exact ⟨rfl, rfl, rfl, rfl, rfl⟩

/-- prefetch_do_request preserves the counter invariant when the window is
strictly below capacity. -/
theorem do_request_counterInv (cap c : Nat) (s : PrefetchState) (ri : Nat)
    (force : Option (Bool × Nat)) (oLsn : Nat) (h : CounterInv c s)
    (hroom : s.ring_unused - s.ring_last < c) :
    CounterInv c (prefetch_do_request cap s ri force oLsn) := by
  obtain ⟨h1, h2, h3, h4⟩ := h
  obtain ⟨e1, e2, e3, e4, _⟩ := do_request_counters cap s ri force oLsn
  exact ⟨by omega, by omega, by omega, by omega⟩

/-- Projection facts for one disconnect iteration: ring_unused and
ring_flush are untouched, ring_receive advances by one, the inflight count
drops by one, and ring_last can only advance, bounded by the new
ring_receive. -/
theorem disconnect_step_facts (cap : Nat) (s : PrefetchState) :
    (disconnect_step cap s).ring_unused = s.ring_unused ∧
    (disconnect_step cap s).ring_flush = s.ring_flush ∧
    (disconnect_step cap s).ring_receive = s.ring_receive + 1 ∧
    (disconnect_step cap s).n_requests_inflight = s.n_requests_inflight - 1 ∧
    s.ring_last ≤ (disconnect_step cap s).ring_last ∧
    ((disconnect_step cap s).ring_last ≤ s.ring_receive + 1 ∨
      (disconnect_step cap s).ring_last = s.ring_last) := by
  have hstep : disconnect_step cap s = prefetch_set_unused cap
      { setSlot cap s s.ring_receive
          { GetPrfSlot cap s s.ring_receive with status := .PRFS_TAG_REMAINS } with
        n_requests_inflight := s.n_requests_inflight - 1
        ring_receive := s.ring_receive + 1 } s.ring_receive := rfl
  obtain ⟨pb, ph, rl, nb, nu, heq, hle, hbd⟩ := set_unused_eq cap
    { setSlot cap s s.ring_receive
        { GetPrfSlot cap s s.ring_receive with status := .PRFS_TAG_REMAINS } with
      n_requests_inflight := s.n_requests_inflight - 1
      ring_receive := s.ring_receive + 1 } s.ring_receive
  rw [hstep, heq]
  have hle1 : s.ring_last ≤ rl := hle
  have hbd1 : rl ≤ s.ring_receive + 1 ∨ rl = s.ring_last := hbd
  refine ⟨rfl, rfl, rfl, rfl, by simpa using hle1, by simpa using hbd1⟩

/-- The disconnect loop preserves the counter invariant whenever ring_flush
has been moved to ring_unused (which prefetch_on_ps_disconnect does before
entering the loop). -/
theorem disconnect_loop_counterInv (cap c : Nat) : ∀ (fuel : Nat)
    (s : PrefetchState), CounterInv c s → s.ring_flush = s.ring_unused →
    CounterInv c (prefetch_disconnect_loop cap fuel s) := by
  intro fuel
  induction fuel with
  | zero => intro s h _; exact h
  | succ n ih =>
    intro s h hf
    obtain ⟨h1, h2, h3, h4⟩ := h
    by_cases hg : s.ring_receive < s.ring_unused
    · have hunf : prefetch_disconnect_loop cap (n + 1) s =
          prefetch_disconnect_loop cap n (disconnect_step cap s) := by
        simp [prefetch_disconnect_loop, hg]
      rw [hunf]
      obtain ⟨e1, e2, e3, e4, e5, e6⟩ := disconnect_step_facts cap s
      exact ih _ ⟨by omega, by omega, by omega, by omega⟩ (by omega)
    · simp only [prefetch_disconnect_loop, hg, if_false]
      exact ⟨h1, h2, h3, h4⟩

/-- prefetch_on_ps_disconnect preserves the counter invariant. -/
theorem disconnect_counterInv (cap c : Nat) (s : PrefetchState)
    (h : CounterInv c s) : CounterInv c (prefetch_on_ps_disconnect cap s) := by
  obtain ⟨h1, h2, h3, h4⟩ := h
  exact disconnect_loop_counterInv cap c (s.ring_unused - s.ring_receive)
    { s with ring_flush := s.ring_unused }
    ⟨h1, by simpa using Nat.le_trans h2 h3, by simp, by simpa using h4⟩ rfl

/-- The lookup phase of registration preserves the counter invariant, never
touches ring_unused, only advances ring_last, and bumps the duplicate
statistic exactly on the duplicate-hit return. -/
theorem register_lookup_facts (cap : Nat) (trA : List (Option NeonResponse))
    (fA : Bool) (s : PrefetchState) (tag : BufferTag) (force : Option (Bool × Nat))
    (h : CounterInv cap s)
    (hhash : ∀ t i, s.prf_hash t = some i → i < s.ring_unused) :
    CounterInv cap (prefetch_register_lookup cap trA fA s tag force).1 ∧
    (prefetch_register_lookup cap trA fA s tag force).1.ring_unused = s.ring_unused ∧
    s.ring_last ≤ (prefetch_register_lookup cap trA fA s tag force).1.ring_last ∧
    ((prefetch_register_lookup cap trA fA s tag force).2 = none →
      (prefetch_register_lookup cap trA fA s tag force).1.stat_duplicates =
        s.stat_duplicates) := by
  obtain ⟨h1, h2, h3, h4⟩ := h
  unfold prefetch_register_lookup
  split
  · exact ⟨⟨h1, h2, h3, h4⟩, rfl, Nat.le_refl _, fun _ => rfl⟩
  · rename_i idx hh
    have hidx : idx < s.ring_unused := hhash tag idx hh
    split
    · obtain ⟨pbW, nbW, niW, rrW, rfW, heqW, hgeW, hleW, hfW⟩ :=
        wait_for_eq cap trA fA s idx
      have hWInv : CounterInv cap (prefetch_wait_for cap trA fA s idx).1 :=
        wait_for_counterInv cap cap trA fA s idx ⟨h1, h2, h3, h4⟩ hidx
      obtain ⟨pb, ph, rl, nb, nu, heqS, hleS, hbdS⟩ :=
        set_unused_eq cap (prefetch_wait_for cap trA fA s idx).1 idx
      refine ⟨set_unused_counterInv cap cap _ idx hWInv, ?_, ?_, fun _ => ?_⟩
      · show (prefetch_set_unused cap (prefetch_wait_for cap trA fA s idx).1 idx).ring_unused
          = s.ring_unused
        rw [heqS, heqW]
      · show s.ring_last ≤
          (prefetch_set_unused cap (prefetch_wait_for cap trA fA s idx).1 idx).ring_last
        rw [heqS, heqW]
        simpa using Nat.le_trans (by rw [heqW]) hleS
      · show (prefetch_set_unused cap (prefetch_wait_for cap trA fA s idx).1 idx).stat_duplicates
          = s.stat_duplicates
        rw [heqS, heqW]
    · split
      · obtain ⟨pb, ph, rl, nb, nu, heqS, hleS, hbdS⟩ := set_unused_eq cap s idx
        refine ⟨set_unused_counterInv cap cap s idx ⟨h1, h2, h3, h4⟩, ?_, ?_, fun _ => ?_⟩
        · show (prefetch_set_unused cap s idx).ring_unused = s.ring_unused
          rw [heqS]
        · show s.ring_last ≤ (prefetch_set_unused cap s idx).ring_last
          rw [heqS]; simpa using hleS
        · show (prefetch_set_unused cap s idx).stat_duplicates = s.stat_duplicates
          rw [heqS]
      · exact ⟨⟨h1, h2, h3, h4⟩, rfl, Nat.le_refl _, fun hc => by simp at hc⟩

/-- Room-making preserves the counter invariant, keeps ring_unused, only
advances ring_last and leaves the duplicate statistic alone, provided the
window is non-empty. -/
theorem make_room_facts (cap : Nat) (trB : List (Option NeonResponse)) (fB : Bool)
    (s : PrefetchState) (h : CounterInv cap s) (hlt : s.ring_last < s.ring_unused) :
    CounterInv cap (prefetch_register_make_room cap trB fB s) ∧
    (prefetch_register_make_room cap trB fB s).ring_unused = s.ring_unused ∧
    s.ring_last ≤ (prefetch_register_make_room cap trB fB s).ring_last ∧
    (prefetch_register_make_room cap trB fB s).stat_duplicates = s.stat_duplicates := by
  obtain ⟨h1, h2, h3, h4⟩ := h
  unfold prefetch_register_make_room
  split
  · obtain ⟨pb, ph, rl, heqC, hleC, hbdC⟩ := compact_eq cap s
    rw [heqC]
    exact ⟨⟨by simp; omega, by simpa using h2, by simpa using h3, by simp; omega⟩,
      rfl, by simpa using hleC, rfl⟩
  · split
    · obtain ⟨pbW, nbW, niW, rrW, rfW, heqW, hgeW, hleW, hfW⟩ :=
        wait_for_eq cap trB fB s s.ring_last
      have hWInv : CounterInv cap (prefetch_wait_for cap trB fB s s.ring_last).1 :=
        wait_for_counterInv cap cap trB fB s s.ring_last ⟨h1, h2, h3, h4⟩ hlt
      obtain ⟨pb, ph, rl, nb, nu, heqS, hleS, hbdS⟩ :=
        set_unused_eq cap (prefetch_wait_for cap trB fB s s.ring_last).1 s.ring_last
      refine ⟨set_unused_counterInv cap cap _ _ hWInv, ?_, ?_, ?_⟩
      · show (prefetch_set_unused cap (prefetch_wait_for cap trB fB s s.ring_last).1
          s.ring_last).ring_unused = s.ring_unused
        rw [heqS, heqW]
      · show s.ring_last ≤ (prefetch_set_unused cap
          (prefetch_wait_for cap trB fB s s.ring_last).1 s.ring_last).ring_last
        rw [heqS, heqW]
        simpa using Nat.le_trans (by rw [heqW]) hleS
      · show (prefetch_set_unused cap (prefetch_wait_for cap trB fB s s.ring_last).1
          s.ring_last).stat_duplicates = s.stat_duplicates
        rw [heqS, heqW]
    · obtain ⟨pb, ph, rl, nb, nu, heqS, hleS, hbdS⟩ := set_unused_eq cap s s.ring_last
      refine ⟨set_unused_counterInv cap cap s _ ⟨h1, h2, h3, h4⟩, ?_, ?_, ?_⟩
      · show (prefetch_set_unused cap s s.ring_last).ring_unused = s.ring_unused
        rw [heqS]
      · show s.ring_last ≤ (prefetch_set_unused cap s s.ring_last).ring_last
        rw [heqS]; simpa using hleS
      · show (prefetch_set_unused cap s s.ring_last).stat_duplicates = s.stat_duplicates
        rw [heqS]
    · obtain ⟨pb, ph, rl, nb, nu, heqS, hleS, hbdS⟩ := set_unused_eq cap s s.ring_last
      refine ⟨set_unused_counterInv cap cap s _ ⟨h1, h2, h3, h4⟩, ?_, ?_, ?_⟩
      · show (prefetch_set_unused cap s s.ring_last).ring_unused = s.ring_unused
        rw [heqS]
      · show s.ring_last ≤ (prefetch_set_unused cap s s.ring_last).ring_last
        rw [heqS]; simpa using hleS
      · show (prefetch_set_unused cap s s.ring_last).stat_duplicates = s.stat_duplicates
        rw [heqS]
    · exact ⟨⟨h1, h2, h3, h4⟩, rfl, Nat.le_refl _, rfl⟩

/-- The allocation tail preserves the counter invariant when the window is
strictly below capacity. -/
theorem register_alloc_counterInv (cap flushEvery oLsn : Nat) (s2 : PrefetchState)
    (tag : BufferTag) (force : Option (Bool × Nat)) (h : CounterInv cap s2)
    (hroom : s2.ring_unused - s2.ring_last < cap) :
    CounterInv cap (prefetch_register_alloc cap flushEvery oLsn s2 tag force).1 := by
  obtain ⟨m1, m2, m3, m4⟩ := do_request_counterInv cap cap
    (setSlot cap s2 s2.ring_unused
      { GetPrfSlot cap s2 s2.ring_unused with
        buftag := tag, my_ring_index := s2.ring_unused })
    s2.ring_unused force oLsn h hroom
  simp only [prefetch_register_alloc]
  split
  · exact ⟨m1, Nat.le_trans m2 m3, Nat.le_refl _, m4⟩
  · exact ⟨m1, m2, m3, m4⟩

/-- prefetch_register_buffer preserves the counter invariant, assuming the
structural state of a running pipeline: a window strictly below capacity
(the source maintains the stronger bound cap - 1 through its ring-full
check), a capacity of at least two, and a tag index that only stores live
ring indexes. -/
theorem register_counterInv (cap flushEvery : Nat)
    (trA trB : List (Option NeonResponse)) (fA fB : Bool) (oLsn : Nat)
    (s : PrefetchState) (tag : BufferTag) (force : Option (Bool × Nat))
    (h : CounterInv cap s) (hroom : s.ring_unused - s.ring_last < cap)
    (hcap : 2 ≤ cap)
    (hhash : ∀ t i, s.prf_hash t = some i → i < s.ring_unused) :
    CounterInv cap
      (prefetch_register_buffer cap flushEvery trA trB fA fB oLsn s tag force).1 := by
  have hfacts := register_lookup_facts cap trA fA s tag force h hhash
  rcases hlk : prefetch_register_lookup cap trA fA s tag force with ⟨s1, o⟩
  rw [hlk] at hfacts
  dsimp only at hfacts
  obtain ⟨hInv1, hU1, hL1, _⟩ := hfacts
  unfold prefetch_register_buffer
  rw [hlk]
  cases o with
  | some idx => exact hInv1
  | none =>
    obtain ⟨g1, g2, g3, g4⟩ := hInv1
    have hroom1 : s1.ring_unused - s1.ring_last < cap := by omega
    by_cases hfull : s1.ring_last + cap - 1 = s1.ring_unused
    · have hlt1 : s1.ring_last < s1.ring_unused := by omega
      obtain ⟨hInv2, hU2, hL2, _⟩ := make_room_facts cap trB fB s1 ⟨g1, g2, g3, g4⟩ hlt1
      obtain ⟨k1, k2, k3, k4⟩ := hInv2
      have hroom2 : (prefetch_register_make_room cap trB fB s1).ring_unused -
          (prefetch_register_make_room cap trB fB s1).ring_last < cap := by omega
      simp only [hfull, if_true, if_pos]
      exact register_alloc_counterInv cap flushEvery oLsn _ tag force
        ⟨k1, k2, k3, k4⟩ hroom2
    · simp only [hfull, if_false, if_neg, not_false_iff]
      exact register_alloc_counterInv cap flushEvery oLsn s1 tag force
        ⟨g1, g2, g3, g4⟩ hroom1

/-- Ring-counter effects of accounting one copied slot. -/
theorem resize_copy_slot_facts (ns : PrefetchState) (newslot : PrefetchRequest)
    (nfree1 : Nat) :
    (resize_copy_slot ns newslot nfree1).ring_unused = ns.ring_unused ∧
    (resize_copy_slot ns newslot nfree1).ring_flush = ns.ring_flush ∧
    (resize_copy_slot ns newslot nfree1).ring_last = ns.ring_last - 1 ∧
    ns.ring_receive - 1 ≤ (resize_copy_slot ns newslot nfree1).ring_receive ∧
    (resize_copy_slot ns newslot nfree1).ring_receive ≤ ns.ring_receive := by
  cases h : newslot.status <;> simp [resize_copy_slot, h] <;> omega

/-- The resize copy loop keeps the four ring counters ordered, with
ring_last tracking nfree, whenever it starts that way. -/
theorem resize_copy_ordered (oldCap : Nat) (oldS : PrefetchState) :
    ∀ (fuel endIdx nfree : Nat) (ns : PrefetchState),
    ns.ring_last = nfree → ns.ring_last ≤ ns.ring_receive →
    ns.ring_receive ≤ ns.ring_flush → ns.ring_flush ≤ ns.ring_unused →
    ns.ring_unused ≤ ns.ring_flush →
    ∃ nf, (resize_copy oldCap oldS fuel endIdx nfree ns).ring_last = nf ∧
      (resize_copy oldCap oldS fuel endIdx nfree ns).ring_last ≤
        (resize_copy oldCap oldS fuel endIdx nfree ns).ring_receive ∧
      (resize_copy oldCap oldS fuel endIdx nfree ns).ring_receive ≤
        (resize_copy oldCap oldS fuel endIdx nfree ns).ring_flush ∧
      (resize_copy oldCap oldS fuel endIdx nfree ns).ring_flush ≤
        (resize_copy oldCap oldS fuel endIdx nfree ns).ring_unused ∧
      (resize_copy oldCap oldS fuel endIdx nfree ns).ring_unused = ns.ring_unused := by
  intro fuel
  induction fuel with
  | zero =>
    intro endIdx nfree ns e1 e2 e3 e4 e5
    exact ⟨ns.ring_last, rfl, e2, e3, e4, rfl⟩
  | succ m ih =>
    intro endIdx nfree ns e1 e2 e3 e4 e5
    by_cases hg : oldS.ring_last ≤ endIdx ∧ nfree ≠ 0
    · by_cases hu : (GetPrfSlot oldCap oldS endIdx).status = .PRFS_UNUSED
      · have hunf : resize_copy oldCap oldS (m + 1) endIdx nfree ns =
            resize_copy oldCap oldS m (endIdx - 1) nfree ns := by
          simp [resize_copy, hg, hu]
        rw [hunf]
        exact ih (endIdx - 1) nfree ns e1 e2 e3 e4 e5
      · have hunf : resize_copy oldCap oldS (m + 1) endIdx nfree ns =
            resize_copy oldCap oldS m (endIdx - 1) (nfree - 1)
              (resize_copy_slot ns
                { GetPrfSlot oldCap oldS endIdx with my_ring_index := nfree - 1 }
                (nfree - 1)) := by
          simp [resize_copy, hg, hu]
        rw [hunf]
        obtain ⟨f1, f2, f3, f4, f5⟩ := resize_copy_slot_facts ns
          { GetPrfSlot oldCap oldS endIdx with my_ring_index := nfree - 1 } (nfree - 1)
        obtain ⟨nf, p1, p2, p3, p4, p5⟩ := ih (endIdx - 1) (nfree - 1)
          (resize_copy_slot ns
            { GetPrfSlot oldCap oldS endIdx with my_ring_index := nfree - 1 }
            (nfree - 1))
          (by omega) (by omega) (by omega) (by omega) (by omega)
        exact ⟨nf, p1, p2, p3, p4, by rw [p5, f1]⟩
    · have hunf : resize_copy oldCap oldS (m + 1) endIdx nfree ns = ns := by
        simp only [resize_copy]
        rw [if_neg hg]
      rw [hunf]
      exact ⟨ns.ring_last, rfl, e2, e3, e4, rfl⟩

/-- readahead_buffer_resize establishes the counter invariant at the new
capacity outright. -/
theorem resize_counterInv (oldCap newCap : Nat) (tr : List (Option NeonResponse))
    (fOk : Bool) (s : PrefetchState) :
    CounterInv newCap (readahead_buffer_resize oldCap newCap tr fOk s) := by
  unfold readahead_buffer_resize
  obtain ⟨nf, q1, q2, q3, q4, q5⟩ := resize_copy_ordered oldCap
    (resize_waited oldCap newCap tr fOk s)
    ((resize_waited oldCap newCap tr fOk s).ring_unused -
      (resize_waited oldCap newCap tr fOk s).ring_last)
    ((resize_waited oldCap newCap tr fOk s).ring_unused - 1)
    newCap (resize_fresh newCap (resize_waited oldCap newCap tr fOk s))
    rfl (Nat.le_refl _) (Nat.le_refl _) (Nat.le_refl _) (Nat.le_refl _)
  have hu : (resize_fresh newCap (resize_waited oldCap newCap tr fOk s)).ring_unused
      = newCap := rfl
  exact ⟨q2, q3, q4, by omega⟩

/-! ## Claim C8 -/

/-- C8: every pipeline operation preserves the counter invariant
ring_last ≤ ring_receive ≤ ring_flush ≤ ring_unused together with
ring_unused - ring_last ≤ CAP: trailing cleanup, compaction, retirement
(prefetch_set_unused), wait/receive (prefetch_wait_for, for a live ring
index), issue (prefetch_do_request, with room in the window), disconnect
handling, registration (under the structural facts of a running pipeline:
window strictly below capacity, capacity at least 2, tag index holding only
live indexes), and resize (which establishes the invariant at the new
capacity outright). -/
theorem C8_counter_invariants : ∀ (cap : Nat) (s : PrefetchState),
    (CounterInv cap s → CounterInv cap (prefetch_cleanup_trailing_unused cap s)) ∧
    (CounterInv cap s → CounterInv cap (compact_prefetch_buffers cap s).1) ∧
    (∀ idx, CounterInv cap s → CounterInv cap (prefetch_set_unused cap s idx)) ∧
    (∀ idx rs fOk, CounterInv cap s → idx < s.ring_unused →
      CounterInv cap (prefetch_wait_for cap rs fOk s idx).1) ∧
    (∀ ri force oLsn, CounterInv cap s → s.ring_unused - s.ring_last < cap →
      CounterInv cap (prefetch_do_request cap s ri force oLsn)) ∧
    (CounterInv cap s → CounterInv cap (prefetch_on_ps_disconnect cap s)) ∧
    (∀ flushEvery trA trB fA fB oLsn tag force, CounterInv cap s →
      s.ring_unused - s.ring_last < cap → 2 ≤ cap →
      (∀ t i, s.prf_hash t = some i → i < s.ring_unused) →
      CounterInv cap
        (prefetch_register_buffer cap flushEvery trA trB fA fB oLsn s tag force).1) ∧
    (∀ newCap tr fOk, CounterInv newCap (readahead_buffer_resize cap newCap tr fOk s)) := by
  intro cap s
  refine ⟨?_, ?_, ?_, ?_, ?_, ?_, ?_, ?_⟩
  · intro h
    obtain ⟨h1, h2, h3, h4⟩ := h
    obtain ⟨rl, heq, hle, hbd⟩ := cleanup_trailing_eq cap s
    rw [heq]
    exact ⟨by simp; omega, by simpa using h2, by simpa using h3, by simp; omega⟩
  · intro h
    obtain ⟨h1, h2, h3, h4⟩ := h
    obtain ⟨pb, ph, rl, heq, hle, hbd⟩ := compact_eq cap s
    rw [heq]
    exact ⟨by simp; omega, by simpa using h2, by simpa using h3, by simp; omega⟩
  · intro idx h
    exact set_unused_counterInv cap cap s idx h
  · intro idx rs fOk h hidx
    exact wait_for_counterInv cap cap rs fOk s idx h hidx
  · intro ri force oLsn h hroom
    exact do_request_counterInv cap cap s ri force oLsn h hroom
  · intro h
    exact disconnect_counterInv cap cap s h
  · intro flushEvery trA trB fA fB oLsn tag force h hroom hcap hhash
    exact register_counterInv cap flushEvery trA trB fA fB oLsn s tag force
      h hroom hcap hhash
  · intro newCap tr fOk
    exact resize_counterInv cap newCap tr fOk s

/-- C8 witness: the conjuncts applied at capacity 4 on the concrete S4
pipeline state (and the empty initial state for registration), every
hypothesis discharged at those concrete inputs. -/
theorem C8_counter_invariants_witness :
    CounterInv 4 (prefetch_set_unused 4 exS4 0) ∧
    CounterInv 4 (prefetch_on_ps_disconnect 4 exS4) ∧
    CounterInv 4 (prefetch_wait_for 4 [some ⟨1⟩, some ⟨2⟩, some ⟨3⟩] true exS4 2).1 ∧
    CounterInv 4
      (prefetch_register_buffer 4 0 [] [] true true 5 (initPState 4) tagA none).1 ∧
    CounterInv 2 (readahead_buffer_resize 4 2 [] true exS4) := by
  refine ⟨?_, ?_, ?_, ?_, ?_⟩
  · exact (C8_counter_invariants 4 exS4).2.2.1 0 (by decide)
  · exact (C8_counter_invariants 4 exS4).2.2.2.2.2.1 (by decide)
  · exact (C8_counter_invariants 4 exS4).2.2.2.1 2 [some ⟨1⟩, some ⟨2⟩, some ⟨3⟩] true
      (by decide) (by decide)
  · refine (C8_counter_invariants 4 (initPState 4)).2.2.2.2.2.2.1 0 [] [] true true 5
      tagA none (by decide) (by decide) (by decide) ?_
    intro t i hti
    exact absurd hti (by simp [initPState])
  · exact (C8_counter_invariants 4 exS4).2.2.2.2.2.2.2 2 [] true

/-- Exact effect of one disconnect iteration when no responses are buffered
(ring_last = ring_receive): the slot passes through TAG_REMAINS, is zeroed,
and trailing cleanup advances ring_last together with ring_receive. -/
theorem disconnect_step_spec (cap : Nat) (s : PrefetchState)
    (hlr : s.ring_last = s.ring_receive) (hlt : s.ring_receive < s.ring_unused) :
    (disconnect_step cap s).ring_receive = s.ring_receive + 1 ∧
    (disconnect_step cap s).ring_last = s.ring_receive + 1 ∧
    (disconnect_step cap s).ring_unused = s.ring_unused ∧
    (disconnect_step cap s).ring_flush = s.ring_flush ∧
    (disconnect_step cap s).n_requests_inflight = s.n_requests_inflight - 1 ∧
    (disconnect_step cap s).prf_buffer (s.ring_receive % cap) = emptySlot ∧
    (∀ j, j ≠ s.ring_receive % cap →
      (disconnect_step cap s).prf_buffer j = s.prf_buffer j) := by
  have hstep : disconnect_step cap s = prefetch_set_unused cap
      { setSlot cap s s.ring_receive
          { GetPrfSlot cap s s.ring_receive with status := .PRFS_TAG_REMAINS } with
        n_requests_inflight := s.n_requests_inflight - 1
        ring_receive := s.ring_receive + 1 } s.ring_receive := rfl
  set T : PrefetchRequest :=
    { GetPrfSlot cap s s.ring_receive with status := .PRFS_TAG_REMAINS } with hT
  set s2 : PrefetchState :=
    { setSlot cap s s.ring_receive T with
      n_requests_inflight := s.n_requests_inflight - 1
      ring_receive := s.ring_receive + 1 } with hs2
  have hread : GetPrfSlot cap s2 s.ring_receive = T := by
    simp [GetPrfSlot, setSlot, hs2]
  have hlast2 : s2.ring_last = s.ring_receive := by
    simp [hs2, setSlot, hlr]
  have hcl : prefetch_set_unused_clear cap s2 s.ring_receive =
      setSlot cap { s2 with prf_hash := hashDelete s2.prf_hash T.buftag }
        s.ring_receive emptySlot := by
    unfold prefetch_set_unused_clear
    rw [hread]
    rw [if_neg (by simp [hT])]
  have hsu : prefetch_set_unused cap s2 s.ring_receive =
      prefetch_set_unused_tail cap
        (setSlot cap { s2 with prf_hash := hashDelete s2.prf_hash T.buftag }
          s.ring_receive emptySlot) s.ring_receive := by
    unfold prefetch_set_unused
    rw [if_neg (by omega : ¬ s.ring_receive < s2.ring_last)]
    rw [hread]
    rw [if_neg (by simp [hT])]
    rw [hcl]
  set s3 : PrefetchState :=
    setSlot cap { s2 with prf_hash := hashDelete s2.prf_hash T.buftag }
      s.ring_receive emptySlot with hs3
  have hlast3 : s3.ring_last = s.ring_receive := hlast2
  have hrecv3 : s3.ring_receive = s.ring_receive + 1 := rfl
  have hread3 : GetPrfSlot cap s3 s.ring_receive = emptySlot := by
    simp [GetPrfSlot, setSlot, hs3]
  have htail : prefetch_set_unused_tail cap s3 s.ring_receive =
      prefetch_cleanup_trailing_unused cap s3 := by
    unfold prefetch_set_unused_tail
    rw [if_pos hlast3]
  have hfuel : s3.ring_receive - s3.ring_last = 1 := by omega
  have hclean : prefetch_cleanup_trailing_unused cap s3 =
      { s3 with ring_last := s.ring_receive + 1 } := by
    unfold prefetch_cleanup_trailing_unused
    rw [hfuel]
    unfold cleanup_loop
    rw [if_pos ⟨by omega, by rw [hlast3, hread3]; rfl⟩]
    unfold cleanup_loop
    rw [hlast3]
  have hfinal : disconnect_step cap s = { s3 with ring_last := s.ring_receive + 1 } := by
    rw [hstep, hsu, htail, hclean]
  rw [hfinal]
  refine ⟨rfl, rfl, rfl, rfl, rfl, ?_, ?_⟩
  · simp [hs3, setSlot]
  · intro j hj
    simp [hs3, setSlot, hs2, hj]

/-- Exact effect of the disconnect loop on a pipeline with no buffered
responses: all counters land on ring_unused, the inflight count reaches
zero, and every slot of the old inflight window is zeroed. -/
theorem disconnect_loop_spec (cap : Nat) : ∀ (fuel : Nat) (s : PrefetchState),
    s.ring_last = s.ring_receive →
    s.ring_receive ≤ s.ring_unused →
    s.ring_unused - s.ring_receive ≤ cap →
    fuel = s.ring_unused - s.ring_receive →
    s.n_requests_inflight = (s.ring_unused : Int) - (s.ring_receive : Int) →
    (prefetch_disconnect_loop cap fuel s).ring_receive = s.ring_unused ∧
    (prefetch_disconnect_loop cap fuel s).ring_unused = s.ring_unused ∧
    (prefetch_disconnect_loop cap fuel s).ring_flush = s.ring_flush ∧
    (prefetch_disconnect_loop cap fuel s).ring_last = s.ring_unused ∧
    (prefetch_disconnect_loop cap fuel s).n_requests_inflight = 0 ∧
    (∀ k, s.ring_receive ≤ k → k < s.ring_unused →
      (prefetch_disconnect_loop cap fuel s).prf_buffer (k % cap) = emptySlot) ∧
    (∀ j, (∀ k, s.ring_receive ≤ k → k < s.ring_unused → j ≠ k % cap) →
      (prefetch_disconnect_loop cap fuel s).prf_buffer j = s.prf_buffer j) := by
  intro fuel
  induction fuel with
  | zero =>
    intro s hlr hru hwin hfuel hni
    have hre : s.ring_receive = s.ring_unused := by omega
    exact ⟨hre, rfl, rfl, (by omega : s.ring_last = s.ring_unused),
      (by omega : s.n_requests_inflight = 0),
      fun k hk1 hk2 => absurd (hk2 : k < s.ring_unused)
        (by have hk1a : s.ring_receive ≤ k := hk1; omega),
      fun _ _ => rfl⟩
  | succ m ih =>
    intro s hlr hru hwin hfuel hni
    have hlt : s.ring_receive < s.ring_unused := by omega
    have hunf : prefetch_disconnect_loop cap (m + 1) s =
        prefetch_disconnect_loop cap m (disconnect_step cap s) := by
      simp [prefetch_disconnect_loop, hlt]
    obtain ⟨e1, e2, e3, e4, e5, e6, e7⟩ := disconnect_step_spec cap s hlr hlt
    obtain ⟨p1, p2, p3, p4, p5, p6, p7⟩ := ih (disconnect_step cap s)
      (by omega) (by omega) (by omega) (by omega) (by omega)
    rw [hunf]
    refine ⟨by omega, by omega, by omega, by omega, p5, ?_, ?_⟩
    · intro k hk1 hk2
      by_cases hk : k = s.ring_receive
      · rw [hk, p7]
        · exact e6
        · intro k2 hk21 hk22 hcontra
          have := ring_pos_inj cap k2 s.ring_receive s.ring_receive s.ring_unused
            (by omega) (by omega) (by omega) (by omega) hwin hcontra.symm
          omega
      · exact p6 k (by omega) (by omega)
    · intro j hj
      rw [p7, e7]
      · exact hj s.ring_receive (Nat.le_refl _) hlt
      · intro k2 hk21 hk22
        exact hj k2 (by omega) (by omega)

/-- Exact effect of prefetch_on_ps_disconnect on a pipeline with no
buffered responses and a coherent inflight count. -/
theorem disconnect_spec (cap : Nat) (s : PrefetchState)
    (hlr : s.ring_last = s.ring_receive)
    (hru : s.ring_receive ≤ s.ring_unused)
    (hwin : s.ring_unused - s.ring_receive ≤ cap)
    (hni : s.n_requests_inflight = (s.ring_unused : Int) - (s.ring_receive : Int)) :
    (prefetch_on_ps_disconnect cap s).ring_receive = s.ring_unused ∧
    (prefetch_on_ps_disconnect cap s).ring_unused = s.ring_unused ∧
    (prefetch_on_ps_disconnect cap s).ring_flush = s.ring_unused ∧
    (prefetch_on_ps_disconnect cap s).ring_last = s.ring_unused ∧
    (prefetch_on_ps_disconnect cap s).n_requests_inflight = 0 ∧
    (∀ k, s.ring_receive ≤ k → k < s.ring_unused →
      (GetPrfSlot cap (prefetch_on_ps_disconnect cap s) k).status = .PRFS_UNUSED) := by
  obtain ⟨p1, p2, p3, p4, p5, p6, p7⟩ := disconnect_loop_spec cap
    (s.ring_unused - s.ring_receive) { s with ring_flush := s.ring_unused }
    hlr hru hwin rfl hni
  refine ⟨p1, p2, p3, p4, p5, ?_⟩
  intro k hk1 hk2
  show ((prefetch_on_ps_disconnect cap s).prf_buffer (k % cap)).status = _
  unfold prefetch_on_ps_disconnect
  rw [p6 k hk1 hk2]
  rfl

/-! ## Claim C3 -/

/-- C3 counterexample: on the S4 scenario (three REQUESTED prefetches,
nothing received), prefetch_on_ps_disconnect does not leave the slots in
TAG_REMAINS with their tags registered, as the claim states: the slots are
immediately retired to UNUSED by the prefetch_set_unused call inside the
loop, and their tags are removed from the index. -/
theorem C3_disconnect_counterexample :
    (GetPrfSlot 4 exS4 0).status = .PRFS_REQUESTED ∧
    exS4.ring_receive = 0 ∧ exS4.ring_unused = 3 ∧
    (GetPrfSlot 4 (prefetch_on_ps_disconnect 4 exS4) 0).status ≠ .PRFS_TAG_REMAINS ∧
    (prefetch_on_ps_disconnect 4 exS4).prf_hash tagA = none := by decide

/-- C3 (amended): after prefetch_on_ps_disconnect returns on a pipeline with
no buffered responses (ring_last = ring_receive) and a coherent inflight
count, every slot that was in the REQUESTED window passes through
TAG_REMAINS only transiently and ends UNUSED (in particular not
TAG_REMAINS); ring_receive = ring_unused, ring_flush = ring_unused, and
n_requests_inflight = 0. -/
theorem C3_disconnect_amended (cap : Nat) (s : PrefetchState)
    (hlr : s.ring_last = s.ring_receive)
    (hru : s.ring_receive ≤ s.ring_unused)
    (hwin : s.ring_unused - s.ring_receive ≤ cap)
    (hni : s.n_requests_inflight = (s.ring_unused : Int) - (s.ring_receive : Int)) :
    (prefetch_on_ps_disconnect cap s).ring_receive =
      (prefetch_on_ps_disconnect cap s).ring_unused ∧
    (prefetch_on_ps_disconnect cap s).ring_flush =
      (prefetch_on_ps_disconnect cap s).ring_unused ∧
    (prefetch_on_ps_disconnect cap s).n_requests_inflight = 0 ∧
    (∀ k, s.ring_receive ≤ k → k < s.ring_unused →
      (GetPrfSlot cap (prefetch_on_ps_disconnect cap s) k).status = .PRFS_UNUSED ∧
      (GetPrfSlot cap (prefetch_on_ps_disconnect cap s) k).status ≠
        .PRFS_TAG_REMAINS) := by
  obtain ⟨p1, p2, p3, p4, p5, p6⟩ := disconnect_spec cap s hlr hru hwin hni
  refine ⟨by omega, by omega, p5, fun k h1 h2 => ⟨p6 k h1 h2, ?_⟩⟩
  rw [p6 k h1 h2]
  simp

/-- C3 witness: the amended disconnect behaviour on the concrete S4 state at
capacity 4, all hypotheses discharged by evaluation. -/
theorem C3_disconnect_amended_witness :
    (prefetch_on_ps_disconnect 4 exS4).ring_receive =
      (prefetch_on_ps_disconnect 4 exS4).ring_unused ∧
    (prefetch_on_ps_disconnect 4 exS4).ring_flush =
      (prefetch_on_ps_disconnect 4 exS4).ring_unused ∧
    (prefetch_on_ps_disconnect 4 exS4).n_requests_inflight = 0 ∧
    (∀ k, exS4.ring_receive ≤ k → k < exS4.ring_unused →
      (GetPrfSlot 4 (prefetch_on_ps_disconnect 4 exS4) k).status = .PRFS_UNUSED ∧
      (GetPrfSlot 4 (prefetch_on_ps_disconnect 4 exS4) k).status ≠
        .PRFS_TAG_REMAINS) :=
  C3_disconnect_amended 4 exS4 (by decide) (by decide) (by decide) (by decide)

/-! ## Claim C10 -/

/-- C10 counterexample: retiring the same ring index twice is not always the
same as retiring it once.  On exCompact, retiring ring index 5 frees the
slot but triggers compaction, which moves the RECEIVED slot of tagA into
ring position 5; a second prefetch_set_unused 5 then retires that moved slot
(and advances ring_last), so the claimed consequence fails. -/
theorem C10_double_retire_counterexample :
    (GetPrfSlot 8 (prefetch_set_unused 8 exCompact 5) 5).status = .PRFS_RECEIVED ∧
    (GetPrfSlot 8 (prefetch_set_unused 8 (prefetch_set_unused 8 exCompact 5) 5) 5).status
      = .PRFS_UNUSED ∧
    (prefetch_set_unused 8 exCompact 5).ring_last = 5 ∧
    (prefetch_set_unused 8 (prefetch_set_unused 8 exCompact 5) 5).ring_last = 6 ∧
    prefetch_set_unused 8 (prefetch_set_unused 8 exCompact 5) 5 ≠
      prefetch_set_unused 8 exCompact 5 := by
  refine ⟨by decide, by decide, by decide, by decide, fun hcontra => ?_⟩
  have := congrArg PrefetchState.ring_last hcontra
  revert this
  decide

/-- C10 (amended): prefetch_set_unused is a no-op on dead indexes (below
ring_last) and on slots already UNUSED, leaving the entire pipeline state
unchanged; consequently retiring the same ring index twice equals retiring
it once whenever the first retirement leaves that ring index dead or its
ring position UNUSED (compaction triggered by the first call may instead
move another received slot into the position, as the counterexample
shows). -/
theorem C10_set_unused_noop_amended : ∀ (cap : Nat) (s : PrefetchState) (idx : Nat),
    (idx < s.ring_last → prefetch_set_unused cap s idx = s) ∧
    ((GetPrfSlot cap s idx).status = .PRFS_UNUSED →
      prefetch_set_unused cap s idx = s) ∧
    ((idx < (prefetch_set_unused cap s idx).ring_last ∨
      (GetPrfSlot cap (prefetch_set_unused cap s idx) idx).status = .PRFS_UNUSED) →
      prefetch_set_unused cap (prefetch_set_unused cap s idx) idx =
        prefetch_set_unused cap s idx) := by
  have hdead : ∀ (cap : Nat) (s : PrefetchState) (idx : Nat), idx < s.ring_last →
      prefetch_set_unused cap s idx = s := by
    intro cap s idx h
    unfold prefetch_set_unused
    rw [if_pos h]
  have hclean : ∀ (cap : Nat) (s : PrefetchState) (idx : Nat),
      (GetPrfSlot cap s idx).status = .PRFS_UNUSED →
      prefetch_set_unused cap s idx = s := by
    intro cap s idx h
    unfold prefetch_set_unused
    by_cases hd : idx < s.ring_last
    · rw [if_pos hd]
    · rw [if_neg hd, if_pos h]
  intro cap s idx
  refine ⟨hdead cap s idx, hclean cap s idx, ?_⟩
  intro hcase
  rcases hcase with hcase | hcase
  · exact hdead cap _ idx hcase
  · exact hclean cap _ idx hcase

/-- C10 witness: the no-op behaviour at concrete inputs: a dead index on the
once-retired exCompact state (ring_last = 5), and the already-UNUSED slot 3
of exS4, with the double-retire consequence on the latter. -/
theorem C10_set_unused_noop_amended_witness :
    prefetch_set_unused 8 (prefetch_set_unused 8 exCompact 5) 0 =
      prefetch_set_unused 8 exCompact 5 ∧
    prefetch_set_unused 4 exS4 3 = exS4 ∧
    prefetch_set_unused 4 (prefetch_set_unused 4 exS4 3) 3 =
      prefetch_set_unused 4 exS4 3 :=
  ⟨(C10_set_unused_noop_amended 8 (prefetch_set_unused 8 exCompact 5) 0).1 (by decide),
   (C10_set_unused_noop_amended 4 exS4 3).2.1 (by decide),
   (C10_set_unused_noop_amended 4 exS4 3).2.2
     (Or.inr (by decide))⟩

/-- The lookup phase leaves the duplicate statistic alone whenever it falls
through to a fresh registration. -/
theorem register_lookup_none_dup (cap : Nat) (trA : List (Option NeonResponse))
    (fA : Bool) (s : PrefetchState) (tag : BufferTag)
    (force : Option (Bool × Nat)) (s1 : PrefetchState) :
    prefetch_register_lookup cap trA fA s tag force = (s1, none) →
    s1.stat_duplicates = s.stat_duplicates := by
  unfold prefetch_register_lookup
  split
  · intro h
    injection h with h1 h2
    rw [← h1]
  · rename_i idx hh
    split
    · intro h
      injection h with h1 h2
      obtain ⟨pbW, nbW, niW, rrW, rfW, heqW, _, _, _⟩ := wait_for_eq cap trA fA s idx
      obtain ⟨pb, ph, rl, nb, nu, heqS, _, _⟩ :=
        set_unused_eq cap (prefetch_wait_for cap trA fA s idx).1 idx
      rw [← h1, heqS, heqW]
    · split
      · intro h
        injection h with h1 h2
        obtain ⟨pb, ph, rl, nb, nu, heqS, _, _⟩ := set_unused_eq cap s idx
        rw [← h1, heqS]
      · intro h
        injection h with h1 h2
        exact Option.noConfusion h2

/-- On the duplicate-hit return, the lookup phase only bumps the duplicate
statistic, and a forced LSN must have accepted the found slot: at least the
forced LSN when latest was requested, exactly the forced LSN otherwise. -/
theorem register_lookup_some (cap : Nat) (trA : List (Option NeonResponse))
    (fA : Bool) (s : PrefetchState) (tag : BufferTag)
    (force : Option (Bool × Nat)) (s1 : PrefetchState) (idx : Nat) :
    prefetch_register_lookup cap trA fA s tag force = (s1, some idx) →
    s.prf_hash tag = some idx ∧
    s1 = { s with stat_duplicates := s.stat_duplicates + 1 } ∧
    (∀ fl flsn, force = some (fl, flsn) →
      (fl = true → flsn ≤ (GetPrfSlot cap s idx).effective_request_lsn) ∧
      (fl = false → flsn = (GetPrfSlot cap s idx).effective_request_lsn)) := by
  unfold prefetch_register_lookup
  split
  · intro h
    injection h with h1 h2
    exact Option.noConfusion h2
  · rename_i idx0 hh
    split
    · intro h
      injection h with h1 h2
      exact Option.noConfusion h2
    · split
      · intro h
        injection h with h1 h2
        exact Option.noConfusion h2
      · rename_i hdsc _
        intro h
        injection h with h1 h2
        injection h2 with hidx
        subst hidx
        refine ⟨hh, h1.symm, ?_⟩
        intro fl flsn hforce
        subst hforce
        rw [Bool.not_eq_true] at hdsc
        cases fl with
        | true =>
          refine ⟨fun _ => ?_, fun hcontra => by simp at hcontra⟩
          have hdec : decide ((GetPrfSlot cap s idx0).effective_request_lsn < flsn)
              = false := by simpa using hdsc
          have := of_decide_eq_false hdec
          omega
        | false =>
          refine ⟨fun hcontra => by simp at hcontra, fun _ => ?_⟩
          have hdec : decide (flsn ≠ (GetPrfSlot cap s idx0).effective_request_lsn)
              = false := by simpa using hdsc
          have := of_decide_eq_false hdec
          simpa using this

/-- Room-making leaves the duplicate statistic alone. -/
theorem make_room_dup (cap : Nat) (trB : List (Option NeonResponse)) (fB : Bool)
    (s : PrefetchState) :
    (prefetch_register_make_room cap trB fB s).stat_duplicates =
      s.stat_duplicates := by
  unfold prefetch_register_make_room
  split
  · obtain ⟨pb, ph, rl, heqC, _, _⟩ := compact_eq cap s
    rw [heqC]
  · split
    · obtain ⟨pbW, nbW, niW, rrW, rfW, heqW, _, _, _⟩ :=
        wait_for_eq cap trB fB s s.ring_last
      obtain ⟨pb, ph, rl, nb, nu, heqS, _, _⟩ :=
        set_unused_eq cap (prefetch_wait_for cap trB fB s s.ring_last).1 s.ring_last
      rw [heqS, heqW]
    · obtain ⟨pb, ph, rl, nb, nu, heqS, _, _⟩ := set_unused_eq cap s s.ring_last
      rw [heqS]
    · obtain ⟨pb, ph, rl, nb, nu, heqS, _, _⟩ := set_unused_eq cap s s.ring_last
      rw [heqS]
    · rfl

/-- The allocation tail leaves the duplicate statistic alone. -/
theorem register_alloc_dup (cap flushEvery oLsn : Nat) (s2 : PrefetchState)
    (tag : BufferTag) (force : Option (Bool × Nat)) :
    (prefetch_register_alloc cap flushEvery oLsn s2 tag force).1.stat_duplicates =
      s2.stat_duplicates := by
  have hd := (do_request_counters cap
    (setSlot cap s2 s2.ring_unused
      { GetPrfSlot cap s2 s2.ring_unused with
        buftag := tag, my_ring_index := s2.ring_unused })
    s2.ring_unused force oLsn).2.2.2.2
  simp only [prefetch_register_alloc]
  split
  · exact hd
  · exact hd

/-- C1: counterexample.  On the prefetch-hash hit path of neon_read_at_lsn
the found slot is reused whenever its effective_request_lsn is at least the
requested LSN, ignoring request_latest entirely: with request_latest = false
and request_lsn = 100, the slot whose effective_request_lsn is 200 is still
reused (counted as a hit), although the claimed rule for force_latest = false
demands reuse only when effective_request_lsn equals the requested LSN. -/
theorem C1_read_hit_ignores_latest_counterexample :
    (neon_read_hit_phase 8 [] true exRead tagA 100 false).2 = some 0 ∧
    (GetPrfSlot 8 exRead 0).effective_request_lsn = 200 :=
  ⟨by decide, by decide⟩

/-- C1: amended statement.  In prefetch_register_buffer the claimed reuse
rule does hold: whenever a registration with forced parameters (fl, flsn)
reuses an existing slot (the duplicate-hit return, observable as the
duplicates statistic being bumped by one), the reused slot satisfies
flsn less-or-equal effective_request_lsn when fl = true and
flsn = effective_request_lsn when fl = false.  On the prefetch-hash hit path
of neon_read_at_lsn, however, reuse only guarantees that the requested LSN
is at most the effective_request_lsn, regardless of request_latest. -/
theorem C1_reuse_safety_amended :
    (∀ (cap flushEvery : Nat) (trA trB : List (Option NeonResponse))
      (fA fB : Bool) (oLsn : Nat) (s : PrefetchState) (tag : BufferTag)
      (fl : Bool) (flsn : Nat) (sr : PrefetchState) (idx : Nat),
      prefetch_register_buffer cap flushEvery trA trB fA fB oLsn s tag
        (some (fl, flsn)) = (sr, idx) →
      sr.stat_duplicates = s.stat_duplicates + 1 →
      (fl = true → flsn ≤ (GetPrfSlot cap s idx).effective_request_lsn) ∧
      (fl = false → flsn = (GetPrfSlot cap s idx).effective_request_lsn)) ∧
    (∀ (cap : Nat) (tr : List (Option NeonResponse)) (fOk : Bool)
      (s : PrefetchState) (tag : BufferTag) (rlsn : Nat) (rlatest : Bool)
      (idx : Nat),
      (neon_read_hit_phase cap tr fOk s tag rlsn rlatest).2 = some idx →
      rlsn ≤ (GetPrfSlot cap s idx).effective_request_lsn) := by
  constructor
  · intro cap flushEvery trA trB fA fB oLsn s tag fl flsn sr idx hreg hdup
    rcases hlk : prefetch_register_lookup cap trA fA s tag (some (fl, flsn))
      with ⟨s1, o⟩
    unfold prefetch_register_buffer at hreg
    rw [hlk] at hreg
    cases o with
    | some j =>
      obtain ⟨hh, hs1, hrule⟩ := register_lookup_some cap trA fA s tag _ s1 j hlk
      dsimp only at hreg
      injection hreg with e1 e2
      subst e2
      exact hrule fl flsn rfl
    | none =>
      exfalso
      have hd1 : s1.stat_duplicates = s.stat_duplicates :=
        register_lookup_none_dup cap trA fA s tag _ s1 hlk
      dsimp only at hreg
      have hd3 := register_alloc_dup cap flushEvery oLsn
        (if s1.ring_last + cap - 1 = s1.ring_unused then
          prefetch_register_make_room cap trB fB s1
        else s1) tag (some (fl, flsn))
      rw [hreg] at hd3
      have hd4 : (if s1.ring_last + cap - 1 = s1.ring_unused then
          prefetch_register_make_room cap trB fB s1
        else s1).stat_duplicates = s1.stat_duplicates := by
        split
        · exact make_room_dup cap trB fB s1
        · rfl
      have hd5 : sr.stat_duplicates = s1.stat_duplicates := by
        rw [← hd4]; exact hd3
      omega
  · intro cap tr fOk s tag rlsn rlatest idx h
    unfold neon_read_hit_phase at h
    rcases hh : s.prf_hash tag with _ | idx0
    · rw [hh] at h
      exact Option.noConfusion h
    · rw [hh] at h
      dsimp only at h
      by_cases hle : rlsn ≤ (GetPrfSlot cap s idx0).effective_request_lsn
      · rw [if_pos hle] at h
        injection h with e
        subst e
        exact hle
      · rw [if_neg hle] at h
        exact Option.noConfusion h

/-- C1: witness for the amended statement, applying both conjuncts at the
example read state: a forced registration with (true, 50) takes the
duplicate-hit return there, and a read at LSN 100 reuses slot 0. -/
theorem C1_reuse_safety_amended_witness :
    50 ≤ (GetPrfSlot 8 exRead
        (prefetch_register_buffer 8 0 [] [] true true 0 exRead tagA
          (some (true, 50))).2).effective_request_lsn ∧
    100 ≤ (GetPrfSlot 8 exRead 0).effective_request_lsn :=
  ⟨(C1_reuse_safety_amended.1 8 0 [] [] true true 0 exRead tagA true 50
      (prefetch_register_buffer 8 0 [] [] true true 0 exRead tagA
        (some (true, 50))).1
      (prefetch_register_buffer 8 0 [] [] true true 0 exRead tagA
        (some (true, 50))).2
      rfl (by decide)).1 rfl,
    C1_reuse_safety_amended.2 8 [] true exRead tagA 100 false 0 (by decide)⟩

/-- C2: counterexample.  For a record referencing a shared catalog (invalid
database id) the filter returns on the early path with an empty event trace,
so no last-written LSN is published for the block at all, let alone before
the partition lock is released. -/
theorem C2_redo_publish_counterexample :
    (neon_redo_read_buffer_filter
      { end_recptr := 500, dbNode := 0, blkno := 3, oldFilterClaims := false,
        bufferPresent := true, cachedRelsize := none, nblocksResp := 7 }).events
      = [] ∧
    pubBeforeRelease 500 (neon_redo_read_buffer_filter
      { end_recptr := 500, dbNode := 0, blkno := 3, oldFilterClaims := false,
        bufferPresent := true, cachedRelsize := none, nblocksResp := 7 }).events
      = false :=
  ⟨by decide, by decide⟩

/-- C2: amended statement.  The unconditional publication only holds on the
main path: when the chained filter does not claim the record and the
database id is valid, the trace publishes a block last-written LSN of at
least end_recptr strictly before the partition lock is released.  The two
early returns (chained filter claims the record, or invalid database id)
publish nothing. -/
theorem C2_redo_publish_amended (a : RedoFilterArgs)
    (hold : a.oldFilterClaims = false) (hdb : a.dbNode ≠ 0) :
    pubBeforeRelease a.end_recptr (neon_redo_read_buffer_filter a).events
      = true := by
  rcases hcr : a.cachedRelsize with _ | relsize
  · cases hbp : a.bufferPresent <;>
      simp [neon_redo_read_buffer_filter, hold, hdb, hcr, hbp, pubBeforeRelease]
  · rcases Nat.lt_or_ge relsize (a.blkno + 1) with hsz | hsz
    · cases hbp : a.bufferPresent <;>
        simp [neon_redo_read_buffer_filter, hold, hdb, hcr, hbp, hsz,
          pubBeforeRelease]
    · have hsz2 : ¬ relsize < a.blkno + 1 := Nat.not_lt.mpr hsz
      cases hbp : a.bufferPresent <;>
        simp [neon_redo_read_buffer_filter, hold, hdb, hcr, hbp, hsz2,
          pubBeforeRelease]

/-- C2: witness for the amended statement on a concrete main-path record. -/
theorem C2_redo_publish_amended_witness :
    pubBeforeRelease 500 (neon_redo_read_buffer_filter
      { end_recptr := 500, dbNode := 13, blkno := 3, oldFilterClaims := false,
        bufferPresent := false, cachedRelsize := some 2, nblocksResp := 7 }).events
      = true :=
  C2_redo_publish_amended
    { end_recptr := 500, dbNode := 13, blkno := 3, oldFilterClaims := false,
      bufferPresent := false, cachedRelsize := some 2, nblocksResp := 7 }
    rfl (by decide)

/-- C4: counterexample.  When the chained old filter claims the record, the
function returns true immediately: the database id is invalid (0) and the
block is present in shared buffers, yet redo is skipped, and the empty trace
shows lfc_evict was never called. -/
theorem C4_redo_skip_counterexample :
    (neon_redo_read_buffer_filter
      { end_recptr := 500, dbNode := 0, blkno := 3, oldFilterClaims := true,
        bufferPresent := true, cachedRelsize := none, nblocksResp := 7 }).skip
      = true ∧
    (neon_redo_read_buffer_filter
      { end_recptr := 500, dbNode := 0, blkno := 3, oldFilterClaims := true,
        bufferPresent := true, cachedRelsize := none, nblocksResp := 7 }).events
      = [] :=
  ⟨by decide, by decide⟩

/-- C4: amended statement.  Provided the chained old filter does not claim
the record, the claimed characterisation holds: the filter skips redo iff
the database id is valid and the block is absent from shared buffers, and
whenever it skips, lfc_evict has been called. -/
theorem C4_redo_skip_amended (a : RedoFilterArgs)
    (hold : a.oldFilterClaims = false) :
    ((neon_redo_read_buffer_filter a).skip = true ↔
      (a.dbNode ≠ 0 ∧ a.bufferPresent = false)) ∧
    ((neon_redo_read_buffer_filter a).skip = true →
      RedoEvent.lfcEvict ∈ (neon_redo_read_buffer_filter a).events) := by
  by_cases hdb : a.dbNode = 0
  · constructor
    · simp [neon_redo_read_buffer_filter, hold, hdb]
    · simp [neon_redo_read_buffer_filter, hold, hdb]
  · rcases hcr : a.cachedRelsize with _ | relsize
    · cases hbp : a.bufferPresent <;> constructor <;>
        simp [neon_redo_read_buffer_filter, hold, hdb, hcr, hbp]
    · rcases Nat.lt_or_ge relsize (a.blkno + 1) with hsz | hsz
      · cases hbp : a.bufferPresent <;> constructor <;>
          simp [neon_redo_read_buffer_filter, hold, hdb, hcr, hbp, hsz]
      · have hsz2 : ¬ relsize < a.blkno + 1 := Nat.not_lt.mpr hsz
        cases hbp : a.bufferPresent <;> constructor <;>
          simp [neon_redo_read_buffer_filter, hold, hdb, hcr, hbp, hsz2]

/-- C4: witness for the amended statement: a valid database id with the
block absent from shared buffers skips redo and evicts from the local file
cache. -/
theorem C4_redo_skip_amended_witness :
    (neon_redo_read_buffer_filter
      { end_recptr := 500, dbNode := 13, blkno := 3, oldFilterClaims := false,
        bufferPresent := false, cachedRelsize := none, nblocksResp := 7 }).skip
      = true ∧
    RedoEvent.lfcEvict ∈ (neon_redo_read_buffer_filter
      { end_recptr := 500, dbNode := 13, blkno := 3, oldFilterClaims := false,
        bufferPresent := false, cachedRelsize := none, nblocksResp := 7 }).events := by
  have h := C4_redo_skip_amended
    { end_recptr := 500, dbNode := 13, blkno := 3, oldFilterClaims := false,
      bufferPresent := false, cachedRelsize := none, nblocksResp := 7 } rfl
  exact ⟨h.1.mpr ⟨by decide, rfl⟩, h.2 (h.1.mpr ⟨by decide, rfl⟩)⟩

/-- C5: confirmed.  Evicting a permanent-relation page with no force, a fork
other than FSM or visibility map, WAL insertion allowed and no shutdown
pending, when the page LSN is zero: an all-zeros page or an empty heap page
is ignored (no panic and no WAL record is written), and every other
zero-LSN page panics. -/
theorem C5_wallog_zero_lsn (env : WalEnv) (forknum blocknum : Nat)
    (page : PageAbs) (logRecLsn : Nat)
    (hsd : env.shutdownPending = false) (hxi : env.xlogInsertAllowed = true)
    (hf1 : forknum ≠ FSM_FORKNUM) (hf2 : forknum ≠ VISIBILITYMAP_FORKNUM)
    (hlsn : page.lsn = 0) :
    ((page.isNew = true ∨ page.isEmptyHeap = true) →
      (neon_wallog_page env forknum blocknum page false logRecLsn).panicked
        = false ∧
      ∀ b l, SmgrEvent.forceLogged b l ∉
        (neon_wallog_page env forknum blocknum page false logRecLsn).events) ∧
    (page.isNew = false → page.isEmptyHeap = false →
      (neon_wallog_page env forknum blocknum page false logRecLsn).panicked
        = true) := by
  unfold neon_wallog_page
  rw [if_neg (by simp [hsd]), if_neg (by simp [hxi]),
    if_neg (by simp [hf1, hf2]), if_pos hlsn]
  constructor
  · intro hcase
    by_cases hn : page.isNew = true
    · rw [if_pos hn]
      exact ⟨rfl, by simp⟩
    · rcases hcase with hnew | he
      · exact absurd hnew hn
      · rw [if_neg hn, if_pos he]
        exact ⟨rfl, by simp⟩
  · intro hn he
    rw [if_neg (by simp [hn]), if_neg (by simp [he])]

/-- C5: witness at a concrete environment: a zero-LSN all-zeros page is
ignored without panic, a zero-LSN dirty page panics. -/
theorem C5_wallog_zero_lsn_witness :
    (neon_wallog_page ⟨false, true, false⟩ 0 7 ⟨0, true, false⟩ false
      999).panicked = false ∧
    (neon_wallog_page ⟨false, true, false⟩ 0 7 ⟨0, false, false⟩ false
      999).panicked = true :=
  ⟨((C5_wallog_zero_lsn ⟨false, true, false⟩ 0 7 ⟨0, true, false⟩ 999 rfl rfl
      (by decide) (by decide) rfl).1 (Or.inl rfl)).1,
    (C5_wallog_zero_lsn ⟨false, true, false⟩ 0 7 ⟨0, false, false⟩ 999 rfl rfl
      (by decide) (by decide) rfl).2 rfl rfl⟩

/-- Forced WAL logging of a page outside recovery, with WAL insertion
allowed and no shutdown pending, writes the full-page image and publishes
its record LSN for the block. -/
theorem wallog_force (env : WalEnv) (forknum blocknum : Nat) (page : PageAbs)
    (lsnRec : Nat) (hsd : env.shutdownPending = false)
    (hxi : env.xlogInsertAllowed = true)
    (hrec : env.recoveryInProgress = false) :
    neon_wallog_page env forknum blocknum page true lsnRec =
      { panicked := false
        events := [SmgrEvent.forceLogged blocknum lsnRec,
                   SmgrEvent.publishedBlock blocknum lsnRec] } := by
  unfold neon_wallog_page
  rw [if_neg (by simp [hsd]), if_neg (by simp [hxi]),
    if_pos ⟨Or.inl rfl, hrec⟩]

/-- A non-forced eviction of a page of a non-FSM, non-visibility-map fork
either panics or publishes a single block LSN, the page LSN itself whenever
it is nonzero. -/
theorem wallog_eviction_cases (env : WalEnv) (forknum blocknum : Nat)
    (page : PageAbs) (lsnRec : Nat) (hsd : env.shutdownPending = false)
    (hxi : env.xlogInsertAllowed = true) (hf1 : forknum ≠ FSM_FORKNUM)
    (hf2 : forknum ≠ VISIBILITYMAP_FORKNUM) :
    (neon_wallog_page env forknum blocknum page false lsnRec).panicked
      = true ∨
    ∃ l, neon_wallog_page env forknum blocknum page false lsnRec =
      { panicked := false, events := [SmgrEvent.publishedBlock blocknum l] } ∧
      (page.lsn ≠ 0 → l = page.lsn) := by
  unfold neon_wallog_page
  rw [if_neg (by simp [hsd]), if_neg (by simp [hxi]),
    if_neg (by simp [hf1, hf2])]
  by_cases hlz : page.lsn = 0
  · rw [if_pos hlz]
    by_cases hn : page.isNew = true
    · right
      exact ⟨0, by rw [if_pos hn], fun h => absurd hlz h⟩
    · by_cases he : page.isEmptyHeap = true
      · right
        exact ⟨0, by rw [if_neg hn, if_pos he], fun h => absurd hlz h⟩
      · left
        rw [if_neg hn, if_neg he]
  · rw [if_neg hlz]
    exact Or.inr ⟨page.lsn, rfl, fun _ => rfl⟩

/-- The gap loop of neon_extend never panics outside recovery with WAL
insertion allowed and no shutdown pending, and force-logs every block of
the fuel window. -/
theorem extend_gap_loop_force (env : WalEnv) (forkNum : Nat) (page : PageAbs)
    (gapLogLsn : Nat → Nat) (hsd : env.shutdownPending = false)
    (hxi : env.xlogInsertAllowed = true)
    (hrec : env.recoveryInProgress = false) :
    ∀ (fuel b : Nat),
    (extend_gap_loop env forkNum page gapLogLsn fuel b).2 = false ∧
    ∀ i, i < fuel →
      SmgrEvent.forceLogged (b + i) (gapLogLsn (b + i)) ∈
        (extend_gap_loop env forkNum page gapLogLsn fuel b).1 := by
  intro fuel
  induction fuel with
  | zero =>
    intro b
    exact ⟨rfl, fun i hi => absurd hi (Nat.not_lt_zero i)⟩
  | succ n ih =>
    intro b
    have hw := wallog_force env forkNum b page (gapLogLsn b) hsd hxi hrec
    have hunf : extend_gap_loop env forkNum page gapLogLsn (n + 1) b =
        ((neon_wallog_page env forkNum b page true (gapLogLsn b)).events ++
          (extend_gap_loop env forkNum page gapLogLsn n (b + 1)).1,
         (extend_gap_loop env forkNum page gapLogLsn n (b + 1)).2) := by
      show (let w := neon_wallog_page env forkNum b page true (gapLogLsn b)
        if w.panicked then (w.events, true)
        else
          let rest := extend_gap_loop env forkNum page gapLogLsn n (b + 1)
          (w.events ++ rest.1, rest.2)) = _
      rw [hw]
      simp
    obtain ⟨ihp, ihm⟩ := ih (b + 1)
    constructor
    · rw [hunf]
      exact ihp
    · intro i hi
      rw [hunf]
      rcases Nat.eq_zero_or_pos i with hz | hpos
      · subst hz
        rw [hw]
        simp
      · obtain ⟨j, hj⟩ : ∃ j, i = j + 1 := ⟨i - 1, by omega⟩
        subst hj
        have hmem := ihm j (by omega)
        have harith : b + (j + 1) = b + 1 + j := by omega
        rw [harith]
        exact List.mem_append_right _ hmem

/-- C6: confirmed.  When neon_extend on a permanent relation returns
successfully (outside recovery, WAL insertion allowed, no shutdown pending,
on a fork other than FSM or visibility map), the size cache holds
blkno + 1, every gap block between the previous cached size and blkno has
been WAL-logged with force, and the last-written LSN is published for the
extended block (with GetXLogInsertRecPtr when the page LSN is zero) and for
the relation. -/
theorem C6_extend_spec (env : WalEnv) (maxClusterMB currentSizeBytes : Nat)
    (isAutovacuum : Bool) (forkNum blkno : Nat) (page : PageAbs)
    (cachedSize : Nat) (gapLogLsn : Nat → Nat) (mainLogLsn insertPtr : Nat)
    (hsd : env.shutdownPending = false) (hxi : env.xlogInsertAllowed = true)
    (hrec : env.recoveryInProgress = false) (hf1 : forkNum ≠ FSM_FORKNUM)
    (hf2 : forkNum ≠ VISIBILITYMAP_FORKNUM)
    (hok : (neon_extend env maxClusterMB currentSizeBytes isAutovacuum forkNum
      blkno page cachedSize gapLogLsn mainLogLsn insertPtr).outcome = .ok) :
    (neon_extend env maxClusterMB currentSizeBytes isAutovacuum forkNum blkno
      page cachedSize gapLogLsn mainLogLsn insertPtr).cache
      = some (blkno + 1) ∧
    (∀ b, cachedSize ≤ b → b < blkno →
      SmgrEvent.forceLogged b (gapLogLsn b) ∈
        (neon_extend env maxClusterMB currentSizeBytes isAutovacuum forkNum
          blkno page cachedSize gapLogLsn mainLogLsn insertPtr).events) ∧
    (page.lsn = 0 →
      SmgrEvent.publishedBlock blkno insertPtr ∈
        (neon_extend env maxClusterMB currentSizeBytes isAutovacuum forkNum
          blkno page cachedSize gapLogLsn mainLogLsn insertPtr).events ∧
      SmgrEvent.publishedRel insertPtr ∈
        (neon_extend env maxClusterMB currentSizeBytes isAutovacuum forkNum
          blkno page cachedSize gapLogLsn mainLogLsn insertPtr).events) ∧
    (page.lsn ≠ 0 →
      SmgrEvent.publishedBlock blkno page.lsn ∈
        (neon_extend env maxClusterMB currentSizeBytes isAutovacuum forkNum
          blkno page cachedSize gapLogLsn mainLogLsn insertPtr).events ∧
      SmgrEvent.publishedRel page.lsn ∈
        (neon_extend env maxClusterMB currentSizeBytes isAutovacuum forkNum
          blkno page cachedSize gapLogLsn mainLogLsn insertPtr).events) := by
  by_cases hcl : 0 < maxClusterMB ∧ isAutovacuum = false ∧
      maxClusterMB * 1024 * 1024 ≤ currentSizeBytes
  · exfalso
    have hce : neon_extend env maxClusterMB currentSizeBytes isAutovacuum
        forkNum blkno page cachedSize gapLogLsn mainLogLsn insertPtr =
        { outcome := .clusterLimitError, cache := some cachedSize,
          events := [] } := by
      unfold neon_extend
      rw [if_pos hcl]
    rw [hce] at hok
    exact ExtendOutcome.noConfusion hok
  · obtain ⟨hgp, hgm⟩ := extend_gap_loop_force env forkNum page gapLogLsn
      hsd hxi hrec (blkno - cachedSize) cachedSize
    by_cases hwp : (neon_wallog_page env forkNum blkno page false
        mainLogLsn).panicked = true
    · exfalso
      have hce : neon_extend env maxClusterMB currentSizeBytes isAutovacuum
          forkNum blkno page cachedSize gapLogLsn mainLogLsn insertPtr =
          { outcome := .panicked, cache := some cachedSize,
            events := (extend_gap_loop env forkNum page gapLogLsn
              (blkno - cachedSize) cachedSize).1 ++
              (neon_wallog_page env forkNum blkno page false
                mainLogLsn).events } := by
        unfold neon_extend
        rw [if_neg hcl]
        dsimp only
        rw [hgp, if_neg (by decide), if_pos hwp]
      rw [hce] at hok
      exact ExtendOutcome.noConfusion hok
    · rcases wallog_eviction_cases env forkNum blkno page mainLogLsn hsd hxi
        hf1 hf2 with hpan | ⟨l, hW, hl⟩
      · exact absurd hpan hwp
      · by_cases hlz : page.lsn = 0
        · have hce : neon_extend env maxClusterMB currentSizeBytes
              isAutovacuum forkNum blkno page cachedSize gapLogLsn mainLogLsn
              insertPtr =
              { outcome := .ok, cache := some (blkno + 1),
                events := ((extend_gap_loop env forkNum page gapLogLsn
                  (blkno - cachedSize) cachedSize).1 ++
                  (neon_wallog_page env forkNum blkno page false
                    mainLogLsn).events ++
                  [SmgrEvent.lfcWrite blkno]) ++
                  [SmgrEvent.publishedBlock blkno insertPtr,
                   SmgrEvent.publishedRel insertPtr] } := by
            unfold neon_extend
            rw [if_neg hcl]
            dsimp only
            rw [hgp, if_neg (by decide),
              if_neg (by simp [hwp]), if_pos hlz]
          refine ⟨by rw [hce], ?_, ?_, fun h => absurd hlz h⟩
          · intro b hb1 hb2
            have hmem := hgm (b - cachedSize) (by omega)
            rw [Nat.add_sub_cancel' hb1] at hmem
            rw [hce]
            exact List.mem_append_left _
              (List.mem_append_left _ (List.mem_append_left _ hmem))
          · intro _
            constructor <;> (rw [hce]; simp)
        · have hce : neon_extend env maxClusterMB currentSizeBytes
              isAutovacuum forkNum blkno page cachedSize gapLogLsn mainLogLsn
              insertPtr =
              { outcome := .ok, cache := some (blkno + 1),
                events := ((extend_gap_loop env forkNum page gapLogLsn
                  (blkno - cachedSize) cachedSize).1 ++
                  (neon_wallog_page env forkNum blkno page false
                    mainLogLsn).events ++
                  [SmgrEvent.lfcWrite blkno]) ++
                  [SmgrEvent.publishedRel page.lsn] } := by
            unfold neon_extend
            rw [if_neg hcl]
            dsimp only
            rw [hgp, if_neg (by decide),
              if_neg (by simp [hwp]), if_neg hlz]
          have hlv : l = page.lsn := hl hlz
          subst hlv
          refine ⟨by rw [hce], ?_, fun h => absurd h hlz, ?_⟩
          · intro b hb1 hb2
            have hmem := hgm (b - cachedSize) (by omega)
            rw [Nat.add_sub_cancel' hb1] at hmem
            rw [hce]
            exact List.mem_append_left _
              (List.mem_append_left _ (List.mem_append_left _ hmem))
          · intro _
            constructor
            · rw [hce, hW]
              simp
            · rw [hce]
              simp

/-- C6: witness at a concrete extension: previous cached size 1, extension
to block 3 with a zero-LSN all-zeros page. -/
theorem C6_extend_spec_witness :
    (neon_extend ⟨false, true, false⟩ 0 0 false 0 3 ⟨0, true, false⟩ 1
      (fun b => 100 + b) 0 777).cache = some 4 ∧
    SmgrEvent.forceLogged 2 102 ∈
      (neon_extend ⟨false, true, false⟩ 0 0 false 0 3 ⟨0, true, false⟩ 1
        (fun b => 100 + b) 0 777).events ∧
    SmgrEvent.publishedBlock 3 777 ∈
      (neon_extend ⟨false, true, false⟩ 0 0 false 0 3 ⟨0, true, false⟩ 1
        (fun b => 100 + b) 0 777).events ∧
    SmgrEvent.publishedRel 777 ∈
      (neon_extend ⟨false, true, false⟩ 0 0 false 0 3 ⟨0, true, false⟩ 1
        (fun b => 100 + b) 0 777).events := by
  have h := C6_extend_spec ⟨false, true, false⟩ 0 0 false 0 3 ⟨0, true, false⟩
    1 (fun b => 100 + b) 0 777 rfl rfl rfl (by decide) (by decide) (by decide)
  exact ⟨h.1, h.2.1 2 (by decide) (by decide), (h.2.2.1 rfl).1, (h.2.2.1 rfl).2⟩

/-- C7: confirmed.  The abort hooks unconditionally reset the
unlogged-build state machine to NOT_IN_PROGRESS without raising; every
non-abort hook raises iff the phase is not NOT_IN_PROGRESS, and the
returned phase is NOT_IN_PROGRESS in every case (the reset is assigned
before ereport raises). -/
theorem C7_xact_hooks :
    (∀ st : UnloggedBuildState,
      AtEOXact_neon .abort st =
        ({ unlogged_build_rel := none,
           unlogged_build_phase := .NOT_IN_PROGRESS }, false) ∧
      AtEOXact_neon .parallelAbort st =
        ({ unlogged_build_rel := none,
           unlogged_build_phase := .NOT_IN_PROGRESS }, false)) ∧
    (∀ (e : XactEvent) (st : UnloggedBuildState),
      e ≠ .abort → e ≠ .parallelAbort →
      ((AtEOXact_neon e st).2 = true ↔
        st.unlogged_build_phase ≠ .NOT_IN_PROGRESS) ∧
      (AtEOXact_neon e st).1.unlogged_build_phase = .NOT_IN_PROGRESS) := by
  constructor
  · intro st
    exact ⟨rfl, rfl⟩
  · intro e st h1 h2
    have hcomm : AtEOXact_neon e st =
        (if st.unlogged_build_phase ≠ .NOT_IN_PROGRESS then
          ({ unlogged_build_rel := none,
             unlogged_build_phase := .NOT_IN_PROGRESS }, true)
        else (st, false)) := by
      cases e <;> first | rfl | (exact absurd rfl h1) | (exact absurd rfl h2)
    rw [hcomm]
    by_cases hp : st.unlogged_build_phase = .NOT_IN_PROGRESS
    · rw [if_neg (fun hne => hne hp)]
      exact ⟨by simp [hp], hp⟩
    · rw [if_pos hp]
      exact ⟨by simp [hp], rfl⟩

/-- C7: witness: an abort in PHASE_1 resets without raising; a commit in
PHASE_1 raises; a commit with no build in progress leaves the phase at
NOT_IN_PROGRESS. -/
theorem C7_xact_hooks_witness :
    AtEOXact_neon .abort ⟨some 5, .PHASE_1⟩ =
      ({ unlogged_build_rel := none,
         unlogged_build_phase := .NOT_IN_PROGRESS }, false) ∧
    (AtEOXact_neon .commit ⟨some 5, .PHASE_1⟩).2 = true ∧
    (AtEOXact_neon .commit
      ⟨none, .NOT_IN_PROGRESS⟩).1.unlogged_build_phase = .NOT_IN_PROGRESS :=
  ⟨(C7_xact_hooks.1 ⟨some 5, .PHASE_1⟩).1,
    (C7_xact_hooks.2 .commit ⟨some 5, .PHASE_1⟩ (by decide)
      (by decide)).1.mpr (by decide),
    (C7_xact_hooks.2 .commit ⟨none, .NOT_IN_PROGRESS⟩ (by decide)
      (by decide)).2⟩

/-- Decoding the boolean byte written by byteOfBool yields the boolean. -/
theorem readBool_byteOfBool (b : Bool) (rest : List Nat) :
    readBool (byteOfBool b :: rest) = some (b, rest) := by
  cases b <;> rfl

/-- Reading exactly the length of a chunk folds its bytes onto the
accumulator and leaves the remainder untouched. -/
theorem readBE_chunk : forall (l rest : List Nat) (acc : Nat),
    readBE l.length acc (l ++ rest) =
      some (l.foldl (fun a b => a * 256 + b) acc, rest) := by
  intro l
  induction l with
  | nil => intro rest acc; rfl
  | cons b t ih =>
    intro rest acc
    show readBE (t.length + 1) acc (b :: (t ++ rest)) = _
    have hstep : readBE (t.length + 1) acc (b :: (t ++ rest)) =
        readBE t.length (acc * 256 + b) (t ++ rest) := rfl
    exact hstep.trans (ih rest (acc * 256 + b))

/-- The network-order encoding of w bytes has length w. -/
theorem natToBytesBE_length (w : Nat) : forall n, (natToBytesBE w n).length = w := by
  induction w with
  | zero => intro n; rfl
  | succ k ih =>
    intro n
    show (natToBytesBE k (n / 256) ++ [n % 256]).length = k + 1
    simp [ih (n / 256)]

/-- Folding the big-endian bytes of n reassembles n modulo 256 to the
width. -/
theorem natToBytesBE_foldl (w : Nat) : forall (n acc : Nat),
    (natToBytesBE w n).foldl (fun a b => a * 256 + b) acc
      = acc * 256 ^ w + n % 256 ^ w := by
  induction w with
  | zero => intro n acc; simp [natToBytesBE, Nat.mod_one]
  | succ k ih =>
    intro n acc
    show (natToBytesBE k (n / 256) ++ [n % 256]).foldl (fun a b => a * 256 + b) acc = _
    rw [List.foldl_append, ih (n / 256) acc]
    show (acc * 256 ^ k + n / 256 % 256 ^ k) * 256 + n % 256
      = acc * 256 ^ (k + 1) + n % 256 ^ (k + 1)
    rw [pow_succ' 256 k, Nat.mod_mul]
    ring

/-- Reading w bytes off a packed field recovers the field modulo 256 to
the w. -/
theorem readBE_pack (w n : Nat) (rest : List Nat) :
    readBE w 0 (natToBytesBE w n ++ rest) = some (n % 256 ^ w, rest) := by
  have h := readBE_chunk (natToBytesBE w n) rest 0
  rw [natToBytesBE_length] at h
  rw [h, natToBytesBE_foldl]
  simp

/-- Decoding a packed common relation body recovers the fields when they
are within wire bounds, succeeding exactly when the remainder is empty. -/
theorem decodeRelBody_pack
    (mk : Bool → Nat → Nat → Nat → Nat → Nat → NeonRequestMsg)
    (latest : Bool) (lsn spc db rel fork : Nat) (rest : List Nat)
    (h1 : lsn < 2 ^ 64) (h2 : spc < 2 ^ 32) (h3 : db < 2 ^ 32)
    (h4 : rel < 2 ^ 32) (h5 : fork < 256) :
    decodeRelBody mk (byteOfBool latest ::
      (natToBytesBE 8 lsn ++ (natToBytesBE 4 spc ++ (natToBytesBE 4 db ++
        (natToBytesBE 4 rel ++ (fork % 256 :: rest)))))) =
      if rest = [] then some (mk latest lsn spc db rel fork) else none := by
  have hp8 : (256 : Nat) ^ 8 = 2 ^ 64 := by norm_num
  have hp4 : (256 : Nat) ^ 4 = 2 ^ 32 := by norm_num
  have e1 : lsn % 256 ^ 8 = lsn := by rw [hp8]; exact Nat.mod_eq_of_lt h1
  have e2 : spc % 256 ^ 4 = spc := by rw [hp4]; exact Nat.mod_eq_of_lt h2
  have e3 : db % 256 ^ 4 = db := by rw [hp4]; exact Nat.mod_eq_of_lt h3
  have e4 : rel % 256 ^ 4 = rel := by rw [hp4]; exact Nat.mod_eq_of_lt h4
  have e5 : fork % 256 = fork := Nat.mod_eq_of_lt h5
  simp only [decodeRelBody, readBool_byteOfBool, readBE_pack, readByte,
    e1, e2, e3, e4, e5]

/-- Decoding a packed GetPage body recovers the fields when they are
within wire bounds, succeeding exactly when the remainder is empty. -/
theorem decodeGetPageBody_pack (latest : Bool)
    (lsn spc db rel fork blkno : Nat) (rest : List Nat)
    (h1 : lsn < 2 ^ 64) (h2 : spc < 2 ^ 32) (h3 : db < 2 ^ 32)
    (h4 : rel < 2 ^ 32) (h5 : fork < 256) (h6 : blkno < 2 ^ 32) :
    decodeGetPageBody (byteOfBool latest ::
      (natToBytesBE 8 lsn ++ (natToBytesBE 4 spc ++ (natToBytesBE 4 db ++
        (natToBytesBE 4 rel ++ (fork % 256 ::
          (natToBytesBE 4 blkno ++ rest))))))) =
      if rest = [] then
        some (.getPageReq latest lsn spc db rel fork blkno)
      else none := by
  have hp8 : (256 : Nat) ^ 8 = 2 ^ 64 := by norm_num
  have hp4 : (256 : Nat) ^ 4 = 2 ^ 32 := by norm_num
  have e1 : lsn % 256 ^ 8 = lsn := by rw [hp8]; exact Nat.mod_eq_of_lt h1
  have e2 : spc % 256 ^ 4 = spc := by rw [hp4]; exact Nat.mod_eq_of_lt h2
  have e3 : db % 256 ^ 4 = db := by rw [hp4]; exact Nat.mod_eq_of_lt h3
  have e4 : rel % 256 ^ 4 = rel := by rw [hp4]; exact Nat.mod_eq_of_lt h4
  have e5 : fork % 256 = fork := Nat.mod_eq_of_lt h5
  have e6 : blkno % 256 ^ 4 = blkno := by rw [hp4]; exact Nat.mod_eq_of_lt h6
  simp only [decodeGetPageBody, readBool_byteOfBool, readBE_pack, readByte,
    e1, e2, e3, e4, e5, e6]

/-- Decoding a packed DbSize body recovers the fields when they are within
wire bounds, succeeding exactly when the remainder is empty. -/
theorem decodeDbSizeBody_pack (latest : Bool) (lsn db : Nat) (rest : List Nat)
    (h1 : lsn < 2 ^ 64) (h2 : db < 2 ^ 32) :
    decodeDbSizeBody (byteOfBool latest ::
      (natToBytesBE 8 lsn ++ (natToBytesBE 4 db ++ rest))) =
      if rest = [] then some (.dbSizeReq latest lsn db) else none := by
  have hp8 : (256 : Nat) ^ 8 = 2 ^ 64 := by norm_num
  have hp4 : (256 : Nat) ^ 4 = 2 ^ 32 := by norm_num
  have e1 : lsn % 256 ^ 8 = lsn := by rw [hp8]; exact Nat.mod_eq_of_lt h1
  have e2 : db % 256 ^ 4 = db := by rw [hp4]; exact Nat.mod_eq_of_lt h2
  simp only [decodeDbSizeBody, readBool_byteOfBool, readBE_pack, e1, e2]

/-- C9: confirmed (decoder modelled from the wire table of the spec, as
the request decoder lives on the page-server side).  For every request
kind within wire bounds, decoding the encoding yields the original
message, and decoding the encoding followed by any nonempty trailing
bytes is a decode error, so a successful decode consumes its buffer
exactly. -/
theorem C9_codec_roundtrip :
    ∀ msg : NeonRequestMsg, wfRequest msg = true →
      nm_unpack_request (nm_pack_request msg) = some msg ∧
      ∀ extra : List Nat, extra ≠ [] →
        nm_unpack_request (nm_pack_request msg ++ extra) = none := by
  intro msg hwf
  cases msg with
  | existsReq latest lsn spc db rel fork =>
    have hb : lsn < 2 ^ 64 ∧ spc < 2 ^ 32 ∧ db < 2 ^ 32 ∧ rel < 2 ^ 32 ∧
        fork < 256 := of_decide_eq_true hwf
    constructor
    · simp only [nm_pack_request, List.cons_append, List.nil_append,
        List.append_assoc]
      simp only [nm_unpack_request, readByte]
      rw [if_pos True.intro,
        decodeRelBody_pack NeonRequestMsg.existsReq latest lsn spc db rel fork
          [] hb.1 hb.2.1 hb.2.2.1 hb.2.2.2.1 hb.2.2.2.2,
        if_pos rfl]
    · intro extra hx
      simp only [nm_pack_request, List.cons_append, List.nil_append,
        List.append_assoc]
      simp only [nm_unpack_request, readByte]
      rw [if_pos True.intro,
        decodeRelBody_pack NeonRequestMsg.existsReq latest lsn spc db rel fork
          extra hb.1 hb.2.1 hb.2.2.1 hb.2.2.2.1 hb.2.2.2.2,
        if_neg hx]
  | nblocksReq latest lsn spc db rel fork =>
    have hb : lsn < 2 ^ 64 ∧ spc < 2 ^ 32 ∧ db < 2 ^ 32 ∧ rel < 2 ^ 32 ∧
        fork < 256 := of_decide_eq_true hwf
    constructor
    · simp only [nm_pack_request, List.cons_append, List.nil_append,
        List.append_assoc]
      simp only [nm_unpack_request, readByte]
      rw [if_pos True.intro,
        decodeRelBody_pack NeonRequestMsg.nblocksReq latest lsn spc db rel fork
          [] hb.1 hb.2.1 hb.2.2.1 hb.2.2.2.1 hb.2.2.2.2,
        if_pos rfl]
      simp [T_NeonExistsRequest, T_NeonNblocksRequest, T_NeonGetPageRequest,
        T_NeonDbSizeRequest]
    · intro extra hx
      simp only [nm_pack_request, List.cons_append, List.nil_append,
        List.append_assoc]
      simp only [nm_unpack_request, readByte]
      rw [if_pos True.intro,
        decodeRelBody_pack NeonRequestMsg.nblocksReq latest lsn spc db rel fork
          extra hb.1 hb.2.1 hb.2.2.1 hb.2.2.2.1 hb.2.2.2.2,
        if_neg hx]
      simp [T_NeonExistsRequest, T_NeonNblocksRequest, T_NeonGetPageRequest,
        T_NeonDbSizeRequest]
  | dbSizeReq latest lsn db =>
    have hb : lsn < 2 ^ 64 ∧ db < 2 ^ 32 := of_decide_eq_true hwf
    constructor
    · simp only [nm_pack_request, List.cons_append, List.nil_append,
        List.append_assoc]
      simp only [nm_unpack_request, readByte]
      rw [if_pos True.intro]
      rw [show natToBytesBE 4 db = natToBytesBE 4 db ++ ([] : List Nat) from
        (List.append_nil _).symm]
      rw [decodeDbSizeBody_pack latest lsn db [] hb.1 hb.2, if_pos rfl]
      simp [T_NeonExistsRequest, T_NeonNblocksRequest, T_NeonGetPageRequest,
        T_NeonDbSizeRequest]
    · intro extra hx
      simp only [nm_pack_request, List.cons_append, List.nil_append,
        List.append_assoc]
      simp only [nm_unpack_request, readByte]
      rw [if_pos True.intro]
      rw [decodeDbSizeBody_pack latest lsn db extra hb.1 hb.2, if_neg hx]
      simp [T_NeonExistsRequest, T_NeonNblocksRequest, T_NeonGetPageRequest,
        T_NeonDbSizeRequest]
  | getPageReq latest lsn spc db rel fork blkno =>
    have hb : lsn < 2 ^ 64 ∧ spc < 2 ^ 32 ∧ db < 2 ^ 32 ∧ rel < 2 ^ 32 ∧
        fork < 256 ∧ blkno < 2 ^ 32 := of_decide_eq_true hwf
    constructor
    · simp only [nm_pack_request, List.cons_append, List.nil_append,
        List.append_assoc]
      simp only [nm_unpack_request, readByte]
      rw [if_pos True.intro]
      rw [show natToBytesBE 4 blkno = natToBytesBE 4 blkno ++ ([] : List Nat)
        from (List.append_nil _).symm]
      rw [decodeGetPageBody_pack latest lsn spc db rel fork blkno []
        hb.1 hb.2.1 hb.2.2.1 hb.2.2.2.1 hb.2.2.2.2.1 hb.2.2.2.2.2,
        if_pos rfl]
      simp [T_NeonExistsRequest, T_NeonNblocksRequest, T_NeonGetPageRequest,
        T_NeonDbSizeRequest]
    · intro extra hx
      simp only [nm_pack_request, List.cons_append, List.nil_append,
        List.append_assoc]
      simp only [nm_unpack_request, readByte]
      rw [if_pos True.intro]
      rw [decodeGetPageBody_pack latest lsn spc db rel fork blkno extra
        hb.1 hb.2.1 hb.2.2.1 hb.2.2.2.1 hb.2.2.2.2.1 hb.2.2.2.2.2,
        if_neg hx]
      simp [T_NeonExistsRequest, T_NeonNblocksRequest, T_NeonGetPageRequest,
        T_NeonDbSizeRequest]

/-- C9: witness at a concrete GetPage request with one trailing byte. -/
theorem C9_codec_roundtrip_witness :
    nm_unpack_request (nm_pack_request
      (.getPageReq true 123456789 1663 12345 16384 0 42)) =
      some (.getPageReq true 123456789 1663 12345 16384 0 42) ∧
    nm_unpack_request (nm_pack_request
      (.getPageReq true 123456789 1663 12345 16384 0 42) ++ [0]) = none := by
  have h := C9_codec_roundtrip
    (.getPageReq true 123456789 1663 12345 16384 0 42) (by decide)
  exact ⟨h.1, h.2 [0] (by decide)⟩

end NeonSmgr
